import Mathlib

/-!
# syz-analyzer: task queue, statistics and mutation

A shallow embedding of the coordinator core of `src/analyzer`:

* `tasks_queue.go`  : `Task`, `VMInfo`, `TasksQueue` with `push`, `pushAll`, `contains`,
  `stop`, `getAndPop`, `isEmpty`;
* `statistics.go`   : `Statistics`, `Result`, `ErrorInfo`, the JSON mirror types,
  `LoadData`, `addResult`, `JSON`;
* `analyzer.go`     : `AddTasksByID`, `AddTasks`, `Mutate`;
* `main.go`         : `InfinityFlag`, `vmKey`.

Modelling conventions.

* A Go `map[K]*V` is an association list `List (K × V)` read with `GoMap.lookup` (first
  binding of the key) and written with `GoMap.store` (overwrite the binding in place, or
  append a new one).  A `nil` map and an empty map are both `[]`; a `nil` slice and an empty
  slice are both `[]`.
* Objects behind pointers are modelled by value and every write through the pointer is a
  `store` of the updated value.  For `*Task` this is sound because `AddTasksByID` allocates a
  fresh `Task` for every push, and `pushAll` (used by `RunTask` only) shares a task whose
  `isInfinite` is set, which `getAndPop` never writes.  The queue operations never
  dereference `task.program`.
* Go `int` is 64 bit.  The statistics counters and `vmKey` are `Int` values combined with
  `goAdd` and `goMul`, the wrapping operations of the machine.  `task.repeat--` runs only when `repeat > 0`, so it is
  the exact predecessor.
* `sync.WaitGroup` is represented by its counter; `Done` is a decrement.  Blocking (`wait`)
  is outside a sequential model and is not embedded.  (The Go runtime aborts when the counter
  would drop below zero; `wait` is the only writer of `isWaiting = true` and adds one first.)
* A run-time abort (nil dereference, index out of range) is the result `none`.
* SHA-256/base64 (`Hash`, `ProgramHash`) and `rand.Intn` come from libraries outside the
  repository and are parameters.
-/

namespace SyzAnalyzer

/-! ## Go maps -/

namespace GoMap

/-- Reading `m[k]`: the first binding of `k`, `none` for a missing key (a `nil` pointer). -/
def lookup {κ ν : Type} [DecidableEq κ] : List (κ × ν) → κ → Option ν
  | [], _ => none
  | (k', v) :: m, k => if k' = k then some v else lookup m k

/-- Writing `m[k] = v`: overwrite the binding of `k`, or add one. -/
def store {κ ν : Type} [DecidableEq κ] : List (κ × ν) → κ → ν → List (κ × ν)
  | [], k, v => [(k, v)]
  | (k', v') :: m, k, v => if k' = k then (k, v) :: m else (k', v') :: store m k v

/-- The keys of a map, in binding order. -/
def keys {κ ν : Type} (m : List (κ × ν)) : List κ := m.map Prod.fst

end GoMap

/-! ## Go integers -/

/-- A Go `int` result: the value of `x` in 64 bit two-complement arithmetic. -/
def wrap64 (x : Int) : Int := (x + 9223372036854775808) % 18446744073709551616 - 9223372036854775808

/-- Go `a + b` on `int` (also `a += b` and `a++`). -/
def goAdd (a b : Int) : Int := wrap64 (a + b)

/-- Go `a * b` on `int`. -/
def goMul (a b : Int) : Int := wrap64 (a * b)

/-- Go `sum` of an `[]int` with `+`. -/
def goSum (xs : List Int) : Int := xs.foldl goAdd 0

/-! ## Programs (external library `prog`) -/

/-- The `Props` slot of a call; only `FailNth` is used by the analyzer. -/
structure CallProps where
  FailNth : Int
  deriving DecidableEq, Repr

/-- A call of a program: `body` stands for everything of `prog.Call` the analyzer never
touches (system call, arguments, return value). -/
structure Call where
  body : String
  Props : CallProps
  deriving DecidableEq, Repr

/-- A parsed program, `prog.Prog`. -/
structure Prog where
  Calls : List Call
  deriving DecidableEq, Repr

/-! ## tasks_queue.go -/

/-- Embeds `type Task struct` -/
structure Task where
  program : Prog
  id : String
  isInfinite : Bool
  repeat_ : Int
  deriving DecidableEq, Repr

/-- Embeds `type VMInfo struct`; `wg` is the counter of the wait group. -/
structure VMInfo where
  tasks : List Task
  isWaiting : Bool
  wg : Int
  deriving DecidableEq, Repr

/-- Embeds `type TasksQueue struct` -/
structure TasksQueue where
  queue : List (Int × VMInfo)
  deriving DecidableEq, Repr

/-- The two errors the queue returns. -/
inductive QueueError where
  | queueEmpty (vmID : Int)
  | noSuchTask
  deriving DecidableEq, Repr

/-- The task sequence of a VM; empty when the VM has no entry. -/
def TasksQueue.tasksOf (tq : TasksQueue) (vmID : Int) : List Task :=
  match GoMap.lookup tq.queue vmID with
  | none => []
  | some info => info.tasks

/-- Embeds `func (tq *TasksQueue) push(vmID int, task *Task)` -/
def TasksQueue.push (tq : TasksQueue) (vmID : Int) (task : Task) : TasksQueue :=
  let info : VMInfo :=
    match GoMap.lookup tq.queue vmID with
    | none => { tasks := [], isWaiting := false, wg := 0 }
    | some info => info
  let info := { info with tasks := info.tasks ++ [task] }
  let info := if info.isWaiting then { info with isWaiting := false, wg := info.wg - 1 } else info
  { queue := GoMap.store tq.queue vmID info }

/-- Embeds `func (tq *TasksQueue) pushAll(task *Task)`: the keys are those of the map when the
loop starts; `push` on an existing key adds no key. -/
def TasksQueue.pushAll (tq : TasksQueue) (task : Task) : TasksQueue :=
  (GoMap.keys tq.queue).foldl (fun q vmID => q.push vmID task) tq

/-- Embeds `func (tq *TasksQueue) contains(taskID string) bool` -/
def TasksQueue.contains (tq : TasksQueue) (taskID : String) : Bool :=
  tq.queue.any (fun entry => entry.2.tasks.any (fun task => task.id == taskID))

/-- The inner loop of `stop` on one VM: at the first `index` whose task has the id, cut the
slice (three cases, as in the source) and leave the loop.  The flag tells whether a task was
found. -/
def stopTasks (taskID : String) (tasks : List Task) : List Task × Bool :=
  match tasks.findIdx? (fun queueTask => queueTask.id == taskID) with
  | none => (tasks, false)
  | some index =>
    if index = 0 then (tasks.drop (index + 1), true)
    else if index = tasks.length - 1 then (tasks.take index, true)
    else (tasks.take index ++ tasks.drop (index + 1), true)

/-- Embeds `func (tq *TasksQueue) stop(taskID string) error`: the new queue and the error. -/
def TasksQueue.stop (tq : TasksQueue) (taskID : String) : TasksQueue × Option QueueError :=
  let queue := tq.queue.map (fun entry => (entry.1, { entry.2 with tasks := (stopTasks taskID entry.2.tasks).1 }))
  let isStopped := tq.queue.any (fun entry => (stopTasks taskID entry.2.tasks).2)
  if !isStopped then ({ queue := queue }, some QueueError.noSuchTask)
  else ({ queue := queue }, none)

/-- Embeds `func (tq *TasksQueue) getAndPop(vmID int) (*Task, error)`: the result and the new
queue.  The returned task is the object behind the returned pointer, that is, after
`task.repeat--`. -/
def TasksQueue.getAndPop (tq : TasksQueue) (vmID : Int) : Except QueueError Task × TasksQueue :=
  match GoMap.lookup tq.queue vmID with
  | none => (Except.error (QueueError.queueEmpty vmID), tq)
  | some info =>
    match info.tasks with
    | [] => (Except.error (QueueError.queueEmpty vmID), tq)
    | task :: rest =>
      let tq1 : TasksQueue := { queue := GoMap.store tq.queue vmID { info with tasks := rest } }
      if task.isInfinite then
        (Except.ok task, tq1.push vmID task)
      else if task.repeat_ > 0 then
        let task := { task with repeat_ := task.repeat_ - 1 }
        (Except.ok task, tq1.push vmID task)
      else
        (Except.ok task, tq1)

/-- Embeds `func (tq *TasksQueue) isEmpty(vmID int) bool` -/
def TasksQueue.isEmpty (tq : TasksQueue) (vmID : Int) : Bool :=
  match GoMap.lookup tq.queue vmID with
  | none => true
  | some info => info.tasks.length == 0

/-! ## main.go and analyzer.go: submitting tasks -/

/-- Embeds `const InfinityFlag = -1` -/
def InfinityFlag : Int := -1

/-- Embeds `func vmKey(poolId, vmId int) int`, in Go arithmetic. -/
def vmKey (poolId vmId : Int) : Int := goAdd (goMul poolId 1000) vmId

/-- The part of `type Analyzer struct` that the task operations use: for every pool id the
value of `pool.Count()`, the program table and the queue. -/
structure Analyzer where
  pools : List (Int × Nat)
  programs : List (String × Prog)
  tasksQueue : TasksQueue

/-- The `Task` literal of `AddTasksByID`. -/
def newTask (ProgramHash : Prog → String) (program : Prog) (repeat_ : Int) : Task :=
  { program := program
    id := ProgramHash program
    isInfinite := decide (repeat_ = InfinityFlag)
    repeat_ := repeat_ }

/-- Embeds `func (analyzer *Analyzer) AddTasksByID(vmID int, programs []*prog.Prog, repeat int)`,
on the queue. -/
def AddTasksByID (ProgramHash : Prog → String) (tq : TasksQueue) (vmID : Int)
    (programs : List Prog) (repeat_ : Int) : TasksQueue :=
  programs.foldl (fun q program => q.push vmID (newTask ProgramHash program repeat_)) tq

/-- Embeds `func (analyzer *Analyzer) AddTasks(programs []*prog.Prog, repeat int)` -/
def AddTasks (ProgramHash : Prog → String) (analyzer : Analyzer) (programs : List Prog)
    (repeat_ : Int) : Analyzer :=
  let table := programs.foldl
    (fun t program => GoMap.store t (ProgramHash program) program) analyzer.programs
  let queue := analyzer.pools.foldl
    (fun q pool => (List.range pool.2).foldl
      (fun q (vmID : Nat) => AddTasksByID ProgramHash q (vmKey pool.1 vmID) programs repeat_) q)
    analyzer.tasksQueue
  { analyzer with programs := table, tasksQueue := queue }

/-- The loop of `Mutate` over `program.Calls`.  `draws` lists the successive results of
`rand.Intn(20)` and `next` counts the draws already made; the new count is returned with the
calls. -/
def mutateCalls (draws : Nat → Int) : Nat → List Call → List Call × Nat
  | next, [] => ([], next)
  | next, call :: calls =>
    if call.Props.FailNth > 0 then
      let failNth := goAdd (draws next) 10
      ({ call with Props := { call.Props with FailNth := failNth } } ::
        (mutateCalls draws (next + 1) calls).1, (mutateCalls draws (next + 1) calls).2)
    else
      ({ call with Props := { call.Props with FailNth := call.Props.FailNth } } ::
        (mutateCalls draws next calls).1, (mutateCalls draws next calls).2)

/-- Embeds `func (analyzer *Analyzer) Mutate(program *prog.Prog)`: the program after the call and
the number of draws made so far. -/
def Mutate (draws : Nat → Int) (next : Nat) (program : Prog) : Prog × Nat :=
  ({ program with Calls := (mutateCalls draws next program.Calls).1 },
    (mutateCalls draws next program.Calls).2)

/-- Embeds `func (analyzer *Analyzer) StopTask(taskID string) error` -/
def StopTask (analyzer : Analyzer) (taskID : String) : Analyzer × Option QueueError :=
  ({ analyzer with tasksQueue := (analyzer.tasksQueue.stop taskID).1 },
    (analyzer.tasksQueue.stop taskID).2)

/-- Embeds `func (analyzer *Analyzer) IsRunning(taskID string) bool` -/
def IsRunning (analyzer : Analyzer) (taskID : String) : Bool :=
  analyzer.tasksQueue.contains taskID

/-! ## statistics.go -/

/-- Embeds `type ErrorInfo struct` -/
structure ErrorInfo where
  error : String
  pools : List Int
  count : Int
  deriving DecidableEq, Repr

/-- Embeds `type Result struct` -/
structure Result where
  program : String
  totalRuns : Int
  successfulRuns : Int
  errorRuns : Int
  errors : List (String × ErrorInfo)
  deriving DecidableEq, Repr

/-- Embeds `type Statistics struct`, without the writer and the mutex.  The field `programs` points
to the program table of the analyzer; the table is an argument of `addResult`. -/
structure Statistics where
  totalRuns : Int
  successfulRuns : Int
  errorRuns : Int
  results : List (String × Result)
  pools : Nat
  deriving DecidableEq, Repr

/-- Embeds `type ErrorInfoJSON struct` -/
structure ErrorInfoJSON where
  Error : String
  Pools : List Int
  Count : Int
  deriving DecidableEq, Repr

/-- Embeds `type ResultJSON struct` -/
structure ResultJSON where
  Program : String
  TotalRuns : Int
  SuccessfulRuns : Int
  ErrorRuns : Int
  Errors : List (String × ErrorInfoJSON)
  deriving DecidableEq, Repr

/-- Embeds `type StatisticsJSON struct`: a snapshot, as `Print` writes it (no `null` entry). -/
structure StatisticsJSON where
  TotalRuns : Int
  SuccessfulRuns : Int
  ErrorRuns : Int
  Results : List (String × ResultJSON)
  deriving DecidableEq, Repr

/-- Embeds `type ProgramArgs struct` of `rpctypes.go`, without the execution info.  `Error` is
`none` for a `nil` byte slice. -/
structure ProgramArgs where
  Pool : Int
  VM : Int
  TaskID : String
  Hanged : Bool
  Error : Option String
  deriving DecidableEq, Repr

/-- The `Statistics` literal of `MakeStatistics`: the state before any file is loaded. -/
def MakeStatistics (pools : Nat) : Statistics :=
  { totalRuns := 0, successfulRuns := 0, errorRuns := 0, results := [], pools := pools }

/-- The loop over `result.Errors` in `LoadData`. -/
def loadErrors (errors : List (String × ErrorInfo)) (snapshot : List (String × ErrorInfoJSON)) :
    List (String × ErrorInfo) :=
  snapshot.foldl (fun errors entry =>
    let currentError : ErrorInfo :=
      match GoMap.lookup errors entry.1 with
      | none => { error := entry.2.Error, pools := [], count := 0 }
      | some info => info
    GoMap.store errors entry.1 { currentError with count := goAdd currentError.count entry.2.Count })
    errors

/-- The body of the loop over `jsonStats.Results` in `LoadData`, on one entry. -/
def loadResult (results : List (String × Result)) (entry : String × ResultJSON) :
    List (String × Result) :=
  let currentResult : Result :=
    match GoMap.lookup results entry.1 with
    | none => { program := entry.2.Program, totalRuns := 0, successfulRuns := 0, errorRuns := 0,
                errors := [] }
    | some result => result
  GoMap.store results entry.1
    { currentResult with
      totalRuns := goAdd currentResult.totalRuns entry.2.TotalRuns
      successfulRuns := goAdd currentResult.successfulRuns entry.2.SuccessfulRuns
      errorRuns := goAdd currentResult.errorRuns entry.2.ErrorRuns
      errors := loadErrors currentResult.errors entry.2.Errors }

/-- Embeds `func (stats *Statistics) LoadData(jsonFile string)`, from the parsed snapshot on. -/
def Statistics.LoadData (stats : Statistics) (jsonStats : StatisticsJSON) : Statistics :=
  { stats with
    totalRuns := goAdd stats.totalRuns jsonStats.TotalRuns
    successfulRuns := goAdd stats.successfulRuns jsonStats.SuccessfulRuns
    errorRuns := goAdd stats.errorRuns jsonStats.ErrorRuns
    results := jsonStats.Results.foldl loadResult stats.results }

/-- Embeds `pools[p]++` on a slice: `none` when the index is out of range. -/
def incrAt (pools : List Int) (p : Int) : Option (List Int) :=
  if 0 ≤ p ∧ p.toNat < pools.length then
    some (pools.set p.toNat (goAdd (pools.getD p.toNat 0) 1))
  else none

/-- The lines of `addResult` that make sure `stats.results[programId]` exists: the entry, or a
new one with the serialized registered program; `none` when the id has neither (the nil
program is dereferenced). -/
def Statistics.ensureResult (Serialize : Prog → String) (programs : List (String × Prog))
    (stats : Statistics) (programId : String) : Option Result :=
  match GoMap.lookup stats.results programId with
  | some current => some current
  | none =>
    match GoMap.lookup programs programId with
    | none => none
    | some program => some { program := Serialize program, totalRuns := 0, successfulRuns := 0,
                             errorRuns := 0, errors := [] }

/-- The lines of `addResult` that make sure `errors[errorId]` exists: the entry, or a new one
with `make([]int, stats.pools)`. -/
def ensureError (pools : Nat) (errors : List (String × ErrorInfo)) (errorId output : String) :
    ErrorInfo :=
  match GoMap.lookup errors errorId with
  | none => { error := output, pools := List.replicate pools 0, count := 0 }
  | some info => info

/-- The state `addResult` leaves for a run without error. -/
def Statistics.withSuccess (stats : Statistics) (programId : String) (current : Result) :
    Statistics :=
  { stats with
    totalRuns := goAdd stats.totalRuns 1
    successfulRuns := goAdd stats.successfulRuns 1
    results := GoMap.store stats.results programId
      { current with
        totalRuns := goAdd current.totalRuns 1
        successfulRuns := goAdd current.successfulRuns 1 } }

/-- The state `addResult` leaves for a run with an error, `pools` being the per-pool slice
after `pools[result.Pool]++`. -/
def Statistics.withError (stats : Statistics) (programId : String) (current : Result)
    (errorId : String) (info : ErrorInfo) (pools : List Int) : Statistics :=
  { stats with
    totalRuns := goAdd stats.totalRuns 1
    errorRuns := goAdd stats.errorRuns 1
    results := GoMap.store stats.results programId
      { current with
        totalRuns := goAdd current.totalRuns 1
        errorRuns := goAdd current.errorRuns 1
        errors := GoMap.store current.errors errorId
          { info with pools := pools, count := goAdd info.count 1 } } }

/-- Embeds `func (stats *Statistics) addResult(result *syz_analyzer.ProgramArgs)`.  `Serialize` and
`Hash` are the library functions, `programs` is the table behind `stats.programs`.  The result
is `none` when the Go code aborts: the task id has neither a `Result` nor a registered
program, or `result.Pool` is no index of the per-pool slice. -/
def Statistics.addResult (Serialize : Prog → String) (Hash : String → String)
    (programs : List (String × Prog)) (stats : Statistics) (result : ProgramArgs) :
    Option Statistics :=
  match stats.ensureResult Serialize programs result.TaskID with
  | none => none
  | some current =>
    match result.Error with
    | some output =>
      match incrAt (ensureError stats.pools current.errors (Hash output) output).pools
          result.Pool with
      | none => none
      | some pools =>
        some (stats.withError result.TaskID current (Hash output)
          (ensureError stats.pools current.errors (Hash output) output) pools)
    | none => some (stats.withSuccess result.TaskID current)

/-- Embeds `func (stats *Statistics) JSON() StatisticsJSON` -/
def Statistics.JSON (stats : Statistics) : StatisticsJSON :=
  { TotalRuns := stats.totalRuns
    SuccessfulRuns := stats.successfulRuns
    ErrorRuns := stats.errorRuns
    Results := stats.results.map (fun entry =>
      (entry.1,
        { Program := entry.2.program
          TotalRuns := entry.2.totalRuns
          SuccessfulRuns := entry.2.successfulRuns
          ErrorRuns := entry.2.errorRuns
          Errors := entry.2.errors.map (fun e =>
            (e.1, { Error := e.2.error, Pools := e.2.pools, Count := e.2.count })) })) }

/-! ## Derived notions used in the statements -/

/-- The equation `totalRuns == successfulRuns + errorRuns` in Go arithmetic. -/
def runsBalanced (totalRuns successfulRuns errorRuns : Int) : Prop :=
  totalRuns = goAdd successfulRuns errorRuns

/-- The equation holds for the totals and for every `Result` of the statistics. -/
def Statistics.balanced (stats : Statistics) : Prop :=
  runsBalanced stats.totalRuns stats.successfulRuns stats.errorRuns ∧
  ∀ entry ∈ stats.results,
    runsBalanced entry.2.totalRuns entry.2.successfulRuns entry.2.errorRuns

/-- The equation holds for the totals and for every result of a snapshot. -/
def StatisticsJSON.balanced (jsonStats : StatisticsJSON) : Prop :=
  runsBalanced jsonStats.TotalRuns jsonStats.SuccessfulRuns jsonStats.ErrorRuns ∧
  ∀ entry ∈ jsonStats.Results,
    runsBalanced entry.2.TotalRuns entry.2.SuccessfulRuns entry.2.ErrorRuns

/-- The keys of a snapshot are distinct, as in every Go map. -/
def StatisticsJSON.distinctKeys (jsonStats : StatisticsJSON) : Prop :=
  (GoMap.keys jsonStats.Results).Nodup ∧
  ∀ entry ∈ jsonStats.Results, (GoMap.keys entry.2.Errors).Nodup

/-- The statistics has `n` pools, every per-pool slice has length `n`, and the error ids of
every result are distinct. -/
def Statistics.sized (stats : Statistics) (n : Nat) : Prop :=
  stats.pools = n ∧
  ∀ entry ∈ stats.results,
    (∀ e ∈ entry.2.errors, e.2.pools.length = n) ∧ (GoMap.keys entry.2.errors).Nodup

/-- The error table of the result of a program id; empty when the result is missing. -/
def Statistics.errorsOf (stats : Statistics) (programId : String) : List (String × ErrorInfo) :=
  (GoMap.lookup stats.results programId).elim [] Result.errors

/-- The `ErrorInfo` of an error id under a program id, if any. -/
def Statistics.errorInfo (stats : Statistics) (programId errorId : String) : Option ErrorInfo :=
  GoMap.lookup (stats.errorsOf programId) errorId

/-- A value that fits a Go `int`. -/
def fitsInt (x : Int) : Prop := -9223372036854775808 ≤ x ∧ x < 9223372036854775808

/-- The states of a `Statistics` with `pools` pools: the fresh one, and what `addResult`
(when it returns) and `LoadData` of an admitted snapshot make of a state. -/
inductive Statistics.Reachable (Serialize : Prog → String) (Hash : String → String)
    (admitted : StatisticsJSON → Prop) (pools : Nat) : Statistics → Prop where
  | make : Statistics.Reachable Serialize Hash admitted pools (MakeStatistics pools)
  | stepAdd (stats next : Statistics) (programs : List (String × Prog)) (args : ProgramArgs) :
      Statistics.Reachable Serialize Hash admitted pools stats →
      Statistics.addResult Serialize Hash programs stats args = some next →
      Statistics.Reachable Serialize Hash admitted pools next
  | stepLoad (stats : Statistics) (jsonStats : StatisticsJSON) :
      Statistics.Reachable Serialize Hash admitted pools stats →
      admitted jsonStats →
      Statistics.Reachable Serialize Hash admitted pools (stats.LoadData jsonStats)

/-- How many of the pairs `(poolID, vmID)` that `AddTasks` visits have the VM key `key`. -/
def pushesTo (pools : List (Int × Nat)) (key : Int) : Nat :=
  (pools.map (fun pool =>
    ((List.range pool.2).map (fun vmID : Nat => vmKey pool.1 vmID)).count key)).sum

/-- The queue after a finite sequence of `getAndPop` calls, one per listed VM key, whatever
each call returns. -/
def popSequence (tq : TasksQueue) (vmIDs : List Int) : TasksQueue :=
  vmIDs.foldl (fun q vmID => (q.getAndPop vmID).2) tq

/-- The effect of one `getAndPop` on the sequence of the popped VM. -/
def requeue : List Task → List Task
  | [] => []
  | task :: rest =>
    if task.isInfinite then rest ++ [task]
    else if task.repeat_ > 0 then rest ++ [{ task with repeat_ := task.repeat_ - 1 }]
    else rest

/-! ## Sample data -/

/-- A stand-in for `ProgramHash` on the sample programs: the call names, joined. -/
def sampleHash (program : Prog) : String :=
  String.join (program.Calls.map Call.body)

/-- A program of three calls with fault injection indices 3, 0 and -1. -/
def sampleProg : Prog :=
  { Calls := [{ body := "open", Props := { FailNth := 3 } },
              { body := "read", Props := { FailNth := 0 } },
              { body := "close", Props := { FailNth := -1 } }] }

/-- A second program. -/
def sampleProg2 : Prog :=
  { Calls := [{ body := "mmap", Props := { FailNth := 0 } }] }

/-- A task that runs `sampleProg` forever. -/
def infiniteTask : Task :=
  { program := sampleProg, id := "P", isInfinite := true, repeat_ := -1 }

/-- A task that runs `sampleProg2` with two repeats left. -/
def finiteTask : Task :=
  { program := sampleProg2, id := "Q", isInfinite := false, repeat_ := 2 }

/-- Two VMs: VM 0 holds the finite task then the infinite one, VM 1 the infinite one. -/
def sampleQueue : TasksQueue :=
  { queue := [(0, { tasks := [finiteTask, infiniteTask], isWaiting := false, wg := 0 }),
              (1, { tasks := [infiniteTask], isWaiting := false, wg := 0 })] }

/-- A random source whose every draw is 19. -/
def sampleDraws : Nat → Int := fun _ => 19

/-- A stand-in for `Hash` on error texts. -/
def sampleErrorHash (text : String) : String := String.append "#" text

/-- The snapshot of the persist-then-load scenario: totals (10, 7, 3), one result with one
error of count 3 over the pools [2, 1, 0]. -/
def sampleSnapshot : StatisticsJSON :=
  { TotalRuns := 10, SuccessfulRuns := 7, ErrorRuns := 3
    Results := [("P",
      { Program := "openreadclose", TotalRuns := 10, SuccessfulRuns := 7, ErrorRuns := 3
        Errors := [("#BUG: foo", { Error := "BUG: foo", Pools := [2, 1, 0], Count := 3 })] })] }

/-- The statistics after loading `sampleSnapshot` into a fresh state with three pools and
then reporting a run of `P` that failed with a new error text in pool 1. -/
def loadedThenFailed : Statistics :=
  { totalRuns := 11, successfulRuns := 7, errorRuns := 4
    results := [("P",
      { program := "openreadclose", totalRuns := 11, successfulRuns := 7, errorRuns := 4
        errors := [("#BUG: foo", { error := "BUG: foo", pools := [], count := 3 }),
                   ("#BUG: bar", { error := "BUG: bar", pools := [0, 1, 0], count := 1 })] })]
    pools := 3 }

/-- The statistics with two pools after one run of `P` that failed in pool 0. -/
def failedOnce : Statistics :=
  { totalRuns := 1, successfulRuns := 0, errorRuns := 1
    results := [("P",
      { program := "openreadclose", totalRuns := 1, successfulRuns := 0, errorRuns := 1
        errors := [("#BUG: foo", { error := "BUG: foo", pools := [1, 0], count := 1 })] })]
    pools := 2 }

/-- One reproducer submitted to VM 0 with `-repeat=2`. -/
def finiteQueue : TasksQueue :=
  AddTasksByID sampleHash { queue := [] } 0 [sampleProg] 2

/-- An analyzer with two pools (two VMs in pool 0, one in pool 1), no program and no task. -/
def sampleAnalyzer : Analyzer :=
  { pools := [(0, 2), (1, 1)], programs := [], tasksQueue := { queue := [] } }

/-- The same reproducer submitted twice to VM 0 with the default `-repeat`. -/
def duplicateQueue : TasksQueue :=
  AddTasksByID sampleHash { queue := [] } 0 [sampleProg, sampleProg] InfinityFlag

/-! # Theorems -/

/-! ## Go maps -/

theorem GoMap.lookup_store_same {κ ν : Type} [DecidableEq κ] (m : List (κ × ν)) (k : κ) (v : ν) :
    GoMap.lookup (GoMap.store m k v) k = some v := by
  induction m with
  | nil => simp [GoMap.store, GoMap.lookup]
  | cons e m ih =>
    obtain ⟨k', v'⟩ := e
    by_cases hk : k' = k
    · simp [GoMap.store, GoMap.lookup, hk]
    · simp [GoMap.store, GoMap.lookup, hk, ih]

theorem GoMap.lookup_store_other {κ ν : Type} [DecidableEq κ] (m : List (κ × ν)) (k k2 : κ) (v : ν)
    (hne : k2 ≠ k) : GoMap.lookup (GoMap.store m k v) k2 = GoMap.lookup m k2 := by
  induction m with
  | nil => simp [GoMap.store, GoMap.lookup, Ne.symm hne]
  | cons e m ih =>
    obtain ⟨k', v'⟩ := e
    by_cases hk : k' = k
    · subst hk
      simp [GoMap.store, GoMap.lookup, Ne.symm hne]
    · by_cases hk2 : k' = k2
      · subst hk2
        simp [GoMap.store, GoMap.lookup, hne]
      · simp [GoMap.store, GoMap.lookup, hk, hk2, ih]

theorem GoMap.lookup_mem {κ ν : Type} [DecidableEq κ] (m : List (κ × ν)) (k : κ) (v : ν)
    (h : GoMap.lookup m k = some v) : (k, v) ∈ m := by
  induction m with
  | nil => simp [GoMap.lookup] at h
  | cons e m ih =>
    obtain ⟨k', v'⟩ := e
    by_cases hk : k' = k
    · simp only [GoMap.lookup, hk, if_true, Option.some.injEq] at h
      simp [hk, h]
    · simp only [GoMap.lookup, hk, if_false] at h
      exact List.mem_cons_of_mem _ (ih h)

theorem GoMap.forall_store {κ ν : Type} [DecidableEq κ] (P : ν → Prop) (m : List (κ × ν))
    (k : κ) (v : ν) (hm : ∀ e ∈ m, P e.2) (hv : P v) : ∀ e ∈ GoMap.store m k v, P e.2 := by
  induction m with
  | nil =>
    intro e he
    simp only [GoMap.store, List.mem_singleton] at he
    rw [he]
    exact hv
  | cons e0 m ih =>
    obtain ⟨k', v'⟩ := e0
    intro e he
    by_cases hk : k' = k
    · simp only [GoMap.store, hk, if_true, List.mem_cons] at he
      rcases he with he | he
      · rw [he]
        exact hv
      · exact hm e (List.mem_cons_of_mem _ he)
    · simp only [GoMap.store, hk, if_false, List.mem_cons] at he
      rcases he with he | he
      · rw [he]
        exact hm (k', v') (List.mem_cons_self _ _)
      · exact ih (fun e2 he2 => hm e2 (List.mem_cons_of_mem _ he2)) e he

/-! ## Go integers -/

theorem wrap64_of_fitsInt (x : Int) (h : fitsInt x) : wrap64 x = x := by
  unfold fitsInt at h
  unfold wrap64
  omega

theorem runsBalanced_zero : runsBalanced 0 0 0 := by
  unfold runsBalanced goAdd wrap64
  decide

theorem runsBalanced_add (t s e t2 s2 e2 : Int) (h : runsBalanced t s e)
    (h2 : runsBalanced t2 s2 e2) : runsBalanced (goAdd t t2) (goAdd s s2) (goAdd e e2) := by
  unfold runsBalanced goAdd wrap64 at *
  omega

theorem runsBalanced_success (t s e : Int) (h : runsBalanced t s e) :
    runsBalanced (goAdd t 1) (goAdd s 1) e := by
  unfold runsBalanced goAdd wrap64 at *
  omega

theorem runsBalanced_failure (t s e : Int) (h : runsBalanced t s e) :
    runsBalanced (goAdd t 1) s (goAdd e 1) := by
  unfold runsBalanced goAdd wrap64 at *
  omega

/-! ## Statistics: addResult by cases -/

theorem Statistics.ensureResult_cases (Serialize : Prog → String)
    (programs : List (String × Prog)) (stats : Statistics) (programId : String)
    (current : Result) (h : stats.ensureResult Serialize programs programId = some current) :
    GoMap.lookup stats.results programId = some current ∨
    (GoMap.lookup stats.results programId = none ∧
      ∃ program, GoMap.lookup programs programId = some program ∧
        current = { program := Serialize program, totalRuns := 0, successfulRuns := 0,
                    errorRuns := 0, errors := [] }) := by
  unfold Statistics.ensureResult at h
  cases hl : GoMap.lookup stats.results programId with
  | some c =>
    simp only [hl, Option.some.injEq] at h
    exact Or.inl (by rw [h])
  | none =>
    simp only [hl] at h
    cases hp : GoMap.lookup programs programId with
    | none => simp [hp] at h
    | some program =>
      simp only [hp, Option.some.injEq] at h
      exact Or.inr ⟨rfl, program, rfl, h.symm⟩

theorem Statistics.addResult_cases (Serialize : Prog → String) (Hash : String → String)
    (programs : List (String × Prog)) (stats next : Statistics) (args : ProgramArgs)
    (h : Statistics.addResult Serialize Hash programs stats args = some next) :
    ∃ current, stats.ensureResult Serialize programs args.TaskID = some current ∧
      ((args.Error = none ∧ next = stats.withSuccess args.TaskID current) ∨
       (∃ output pools, args.Error = some output ∧
          incrAt (ensureError stats.pools current.errors (Hash output) output).pools args.Pool =
            some pools ∧
          next = stats.withError args.TaskID current (Hash output)
            (ensureError stats.pools current.errors (Hash output) output) pools)) := by
  unfold Statistics.addResult at h
  cases he : stats.ensureResult Serialize programs args.TaskID with
  | none => simp [he] at h
  | some current =>
    simp only [he] at h
    refine ⟨current, rfl, ?_⟩
    cases herr : args.Error with
    | none =>
      simp only [herr, Option.some.injEq] at h
      exact Or.inl ⟨rfl, h.symm⟩
    | some output =>
      simp only [herr] at h
      cases hi : incrAt (ensureError stats.pools current.errors (Hash output) output).pools
          args.Pool with
      | none => simp [hi] at h
      | some pools =>
        simp only [hi, Option.some.injEq] at h
        exact Or.inr ⟨output, pools, rfl, hi, h.symm⟩

/-! ## Statistics: the balance of the counters -/

theorem loadResult_balanced (results : List (String × Result)) (entry : String × ResultJSON)
    (hres : ∀ e ∈ results, runsBalanced e.2.totalRuns e.2.successfulRuns e.2.errorRuns)
    (hent : runsBalanced entry.2.TotalRuns entry.2.SuccessfulRuns entry.2.ErrorRuns) :
    ∀ e ∈ loadResult results entry,
      runsBalanced e.2.totalRuns e.2.successfulRuns e.2.errorRuns := by
  unfold loadResult
  apply GoMap.forall_store
    (fun r : Result => runsBalanced r.totalRuns r.successfulRuns r.errorRuns) _ _ _ hres
  cases hl : GoMap.lookup results entry.1 with
  | none => exact runsBalanced_add _ _ _ _ _ _ runsBalanced_zero hent
  | some current =>
    exact runsBalanced_add _ _ _ _ _ _ (hres _ (GoMap.lookup_mem _ _ _ hl)) hent

theorem foldl_loadResult_balanced (snapshot : List (String × ResultJSON))
    (results : List (String × Result))
    (hres : ∀ e ∈ results, runsBalanced e.2.totalRuns e.2.successfulRuns e.2.errorRuns)
    (hsnap : ∀ e ∈ snapshot, runsBalanced e.2.TotalRuns e.2.SuccessfulRuns e.2.ErrorRuns) :
    ∀ e ∈ snapshot.foldl loadResult results,
      runsBalanced e.2.totalRuns e.2.successfulRuns e.2.errorRuns := by
  induction snapshot generalizing results with
  | nil => exact hres
  | cons entry snapshot ih =>
    simp only [List.foldl_cons]
    apply ih
    · exact loadResult_balanced results entry hres (hsnap entry (List.mem_cons_self _ _))
    · intro e he
      exact hsnap e (List.mem_cons_of_mem _ he)

theorem Statistics.LoadData_balanced (stats : Statistics) (jsonStats : StatisticsJSON)
    (hs : stats.balanced) (hj : jsonStats.balanced) : (stats.LoadData jsonStats).balanced := by
  refine ⟨runsBalanced_add _ _ _ _ _ _ hs.1 hj.1, ?_⟩
  exact foldl_loadResult_balanced jsonStats.Results stats.results hs.2 hj.2

theorem Statistics.ensureResult_balanced (Serialize : Prog → String)
    (programs : List (String × Prog)) (stats : Statistics) (programId : String)
    (current : Result) (hs : stats.balanced)
    (h : stats.ensureResult Serialize programs programId = some current) :
    runsBalanced current.totalRuns current.successfulRuns current.errorRuns := by
  rcases Statistics.ensureResult_cases Serialize programs stats programId current h with
    hl | ⟨_, program, _, hc⟩
  · exact hs.2 _ (GoMap.lookup_mem _ _ _ hl)
  · rw [hc]
    exact runsBalanced_zero

theorem Statistics.addResult_balanced (Serialize : Prog → String) (Hash : String → String)
    (programs : List (String × Prog)) (stats next : Statistics) (args : ProgramArgs)
    (hs : stats.balanced) (h : Statistics.addResult Serialize Hash programs stats args = some next) :
    next.balanced := by
  obtain ⟨current, hcur, hcase⟩ :=
    Statistics.addResult_cases Serialize Hash programs stats next args h
  have hb := Statistics.ensureResult_balanced Serialize programs stats args.TaskID current hs hcur
  rcases hcase with ⟨_, hnext⟩ | ⟨output, pools, _, _, hnext⟩
  · rw [hnext]
    refine ⟨runsBalanced_success _ _ _ hs.1, ?_⟩
    exact GoMap.forall_store
      (fun r : Result => runsBalanced r.totalRuns r.successfulRuns r.errorRuns) _ _ _ hs.2
      (runsBalanced_success _ _ _ hb)
  · rw [hnext]
    refine ⟨runsBalanced_failure _ _ _ hs.1, ?_⟩
    exact GoMap.forall_store
      (fun r : Result => runsBalanced r.totalRuns r.successfulRuns r.errorRuns) _ _ _ hs.2
      (runsBalanced_failure _ _ _ hb)

/-- C4: in every state reachable from the fresh statistics by `addResult` calls and by
`LoadData` of snapshots that satisfy the equation, `totalRuns == successfulRuns + errorRuns`
holds in Go arithmetic for the totals and for every `Result`; it is the equation over the
integers whenever the sum on the right fits an `int`. -/
theorem Statistics.reachable_balanced (Serialize : Prog → String) (Hash : String → String)
    (pools : Nat) (stats : Statistics)
    (h : Statistics.Reachable Serialize Hash StatisticsJSON.balanced pools stats) :
    stats.balanced ∧
    (fitsInt (stats.successfulRuns + stats.errorRuns) →
      stats.totalRuns = stats.successfulRuns + stats.errorRuns) ∧
    (∀ entry ∈ stats.results, fitsInt (entry.2.successfulRuns + entry.2.errorRuns) →
      entry.2.totalRuns = entry.2.successfulRuns + entry.2.errorRuns) := by
  have hb : stats.balanced := by
    induction h with
    | make => exact ⟨runsBalanced_zero, fun e he => by simp [MakeStatistics] at he⟩
    | stepAdd stats next programs args _ hadd ih =>
      exact Statistics.addResult_balanced Serialize Hash programs stats next args ih hadd
    | stepLoad stats jsonStats _ hj ih =>
      exact Statistics.LoadData_balanced stats jsonStats ih hj
  refine ⟨hb, ?_, ?_⟩
  · intro hfit
    have h1 := hb.1
    unfold runsBalanced goAdd at h1
    rw [h1, wrap64_of_fitsInt _ hfit]
  · intro entry hmem hfit
    have h2 := hb.2 entry hmem
    unfold runsBalanced goAdd at h2
    rw [h2, wrap64_of_fitsInt _ hfit]

/-- C4 on the state reached by loading `sampleSnapshot` and then adding one failed run of
`P`: totals 11 = 7 + 4. -/
theorem Statistics.reachable_balanced_witness :
    Statistics.Reachable sampleHash sampleErrorHash StatisticsJSON.balanced 3 loadedThenFailed ∧
    loadedThenFailed.balanced ∧
    loadedThenFailed.totalRuns = 11 ∧ loadedThenFailed.successfulRuns = 7 ∧
    loadedThenFailed.errorRuns = 4 :=
  have hsnap : sampleSnapshot.balanced := by
    unfold StatisticsJSON.balanced runsBalanced
    decide
  have hreach : Statistics.Reachable sampleHash sampleErrorHash StatisticsJSON.balanced 3
      loadedThenFailed :=
    Statistics.Reachable.stepAdd ((MakeStatistics 3).LoadData sampleSnapshot) loadedThenFailed
      [("P", sampleProg)]
      { Pool := 1, VM := 0, TaskID := "P", Hanged := false, Error := some "BUG: bar" }
      (Statistics.Reachable.stepLoad (MakeStatistics 3) sampleSnapshot
        Statistics.Reachable.make hsnap)
      (by decide)
  ⟨hreach, (Statistics.reachable_balanced sampleHash sampleErrorHash 3 loadedThenFailed hreach).1,
    by decide, by decide, by decide⟩

/-! ## TasksQueue: push and getAndPop -/

theorem TasksQueue.tasksOf_push_same (tq : TasksQueue) (vmID : Int) (task : Task) :
    (tq.push vmID task).tasksOf vmID = tq.tasksOf vmID ++ [task] := by
  unfold TasksQueue.push TasksQueue.tasksOf
  simp only [GoMap.lookup_store_same]
  cases hl : GoMap.lookup tq.queue vmID with
  | none => simp
  | some info => cases hw : info.isWaiting <;> simp [hw]

theorem TasksQueue.lookup_push_other (tq : TasksQueue) (vmID other : Int) (task : Task)
    (hne : other ≠ vmID) :
    GoMap.lookup (tq.push vmID task).queue other = GoMap.lookup tq.queue other := by
  unfold TasksQueue.push
  simp only [GoMap.lookup_store_other _ _ _ _ hne]

theorem TasksQueue.tasksOf_push_other (tq : TasksQueue) (vmID other : Int) (task : Task)
    (hne : other ≠ vmID) : (tq.push vmID task).tasksOf other = tq.tasksOf other := by
  unfold TasksQueue.tasksOf
  rw [TasksQueue.lookup_push_other tq vmID other task hne]

theorem TasksQueue.tasksOf_store (tq : TasksQueue) (vmID : Int) (info : VMInfo) :
    TasksQueue.tasksOf { queue := GoMap.store tq.queue vmID info } vmID = info.tasks := by
  simp [TasksQueue.tasksOf, GoMap.lookup_store_same]

/-- What `getAndPop` does on a VM whose sequence is `task :: rest`, by the repeat mode. -/
theorem TasksQueue.getAndPop_cons (tq : TasksQueue) (vmID : Int) (task : Task)
    (rest : List Task) (h : tq.tasksOf vmID = task :: rest) :
    tq.getAndPop vmID =
      if task.isInfinite then
        (Except.ok task, (TasksQueue.mk (GoMap.store tq.queue vmID
          { (match GoMap.lookup tq.queue vmID with
              | some info => info
              | none => { tasks := [], isWaiting := false, wg := 0 }) with tasks := rest })).push vmID task)
      else if task.repeat_ > 0 then
        (Except.ok { task with repeat_ := task.repeat_ - 1 },
          (TasksQueue.mk (GoMap.store tq.queue vmID
          { (match GoMap.lookup tq.queue vmID with
              | some info => info
              | none => { tasks := [], isWaiting := false, wg := 0 }) with tasks := rest })).push vmID
            { task with repeat_ := task.repeat_ - 1 })
      else
        (Except.ok task, TasksQueue.mk (GoMap.store tq.queue vmID
          { (match GoMap.lookup tq.queue vmID with
              | some info => info
              | none => { tasks := [], isWaiting := false, wg := 0 }) with tasks := rest })) := by
  unfold TasksQueue.tasksOf at h
  unfold TasksQueue.getAndPop
  cases hl : GoMap.lookup tq.queue vmID with
  | none => simp [hl] at h
  | some info =>
    simp only [hl] at h
    simp only [h]

/-- C1: on a VM whose sequence is `task :: rest`, `getAndPop` returns the head task and
leaves `rest` followed by the same task when it is infinite, by the task with `repeat`
decremented when it is finite with `repeat > 0` (the returned pointer shows the decrement
too), and by nothing when it is finite with no repeat left; the entry of every other VM is
unchanged. -/
theorem TasksQueue.getAndPop_head_requeue (tq : TasksQueue) (vmID : Int) (task : Task)
    (rest : List Task) (h : tq.tasksOf vmID = task :: rest) :
    (task.isInfinite = true →
      (tq.getAndPop vmID).1 = Except.ok task ∧
      (tq.getAndPop vmID).2.tasksOf vmID = rest ++ [task]) ∧
    (task.isInfinite = false → 0 < task.repeat_ →
      (tq.getAndPop vmID).1 = Except.ok { task with repeat_ := task.repeat_ - 1 } ∧
      (tq.getAndPop vmID).2.tasksOf vmID = rest ++ [{ task with repeat_ := task.repeat_ - 1 }]) ∧
    (task.isInfinite = false → task.repeat_ ≤ 0 →
      (tq.getAndPop vmID).1 = Except.ok task ∧
      (tq.getAndPop vmID).2.tasksOf vmID = rest) ∧
    (∀ other : Int, other ≠ vmID →
      GoMap.lookup (tq.getAndPop vmID).2.queue other = GoMap.lookup tq.queue other) := by
  rw [TasksQueue.getAndPop_cons tq vmID task rest h]
  refine ⟨?_, ?_, ?_, ?_⟩
  · intro hinf
    simp [hinf, TasksQueue.tasksOf_push_same, TasksQueue.tasksOf_store]
  · intro hinf hpos
    simp [hinf, hpos, TasksQueue.tasksOf_push_same, TasksQueue.tasksOf_store]
  · intro hinf hle
    have hnot : ¬ (0 < task.repeat_) := not_lt.mpr hle
    simp [hinf, hnot, TasksQueue.tasksOf_store]
  · intro other hne
    by_cases hinf : task.isInfinite = true
    · simp [hinf, TasksQueue.lookup_push_other _ _ _ _ hne, GoMap.lookup_store_other _ _ _ _ hne]
    · by_cases hpos : 0 < task.repeat_
      · simp [hinf, hpos, TasksQueue.lookup_push_other _ _ _ _ hne,
          GoMap.lookup_store_other _ _ _ _ hne]
      · simp [hinf, hpos, GoMap.lookup_store_other _ _ _ _ hne]

/-- C1 at `sampleQueue`, VM 0: the finite task is returned with one repeat left and moves
behind the infinite one; VM 1 is untouched. -/
theorem TasksQueue.getAndPop_head_requeue_witness :
    sampleQueue.tasksOf 0 = finiteTask :: [infiniteTask] ∧
    (sampleQueue.getAndPop 0).1 = Except.ok { finiteTask with repeat_ := 1 } ∧
    (sampleQueue.getAndPop 0).2.tasksOf 0 = [infiniteTask, { finiteTask with repeat_ := 1 }] ∧
    GoMap.lookup (sampleQueue.getAndPop 0).2.queue 1 = GoMap.lookup sampleQueue.queue 1 :=
  have key := TasksQueue.getAndPop_head_requeue sampleQueue 0 finiteTask [infiniteTask] rfl
  ⟨rfl, (key.2.1 rfl (by decide)).1, (key.2.1 rfl (by decide)).2, key.2.2.2 1 (by decide)⟩

/-! ## TasksQueue: sequences of getAndPop -/

theorem TasksQueue.getAndPop_nil (tq : TasksQueue) (vmID : Int) (h : tq.tasksOf vmID = []) :
    tq.getAndPop vmID = (Except.error (QueueError.queueEmpty vmID), tq) := by
  unfold TasksQueue.tasksOf at h
  unfold TasksQueue.getAndPop
  cases hl : GoMap.lookup tq.queue vmID with
  | none => rfl
  | some info =>
    simp only [hl] at h
    simp only [h]

theorem TasksQueue.lookup_getAndPop_other (tq : TasksQueue) (vmID other : Int)
    (hne : other ≠ vmID) :
    GoMap.lookup (tq.getAndPop vmID).2.queue other = GoMap.lookup tq.queue other := by
  cases hq : tq.tasksOf vmID with
  | nil => rw [TasksQueue.getAndPop_nil tq vmID hq]
  | cons task rest =>
    rw [TasksQueue.getAndPop_cons tq vmID task rest hq]
    by_cases hinf : task.isInfinite = true
    · simp [hinf, TasksQueue.lookup_push_other _ _ _ _ hne, GoMap.lookup_store_other _ _ _ _ hne]
    · by_cases hpos : 0 < task.repeat_
      · simp [hinf, hpos, TasksQueue.lookup_push_other _ _ _ _ hne,
          GoMap.lookup_store_other _ _ _ _ hne]
      · simp [hinf, hpos, GoMap.lookup_store_other _ _ _ _ hne]

theorem TasksQueue.tasksOf_getAndPop (tq : TasksQueue) (vmID vm : Int) :
    (tq.getAndPop vmID).2.tasksOf vm =
      if vm = vmID then requeue (tq.tasksOf vmID) else tq.tasksOf vm := by
  by_cases hv : vm = vmID
  · subst hv
    simp only [if_true]
    cases hq : tq.tasksOf vm with
    | nil => rw [TasksQueue.getAndPop_nil tq vm hq, hq, requeue]
    | cons task rest =>
      rw [TasksQueue.getAndPop_cons tq vm task rest hq]
      unfold requeue
      by_cases hinf : task.isInfinite = true
      · simp [hinf, TasksQueue.tasksOf_push_same, TasksQueue.tasksOf_store]
      · by_cases hpos : 0 < task.repeat_
        · simp [hinf, hpos, TasksQueue.tasksOf_push_same, TasksQueue.tasksOf_store]
        · simp [hinf, hpos, TasksQueue.tasksOf_store]
  · simp only [hv, if_false]
    unfold TasksQueue.tasksOf
    rw [TasksQueue.lookup_getAndPop_other tq vmID vm hv]

theorem count_requeue (tasks : List Task) (t : Task) (ht : t.isInfinite = true) :
    (requeue tasks).count t = tasks.count t := by
  cases tasks with
  | nil => rfl
  | cons task rest =>
    unfold requeue
    by_cases hinf : task.isInfinite = true
    · simp only [hinf, if_true, List.count_append, List.count_cons, List.count_nil]
      omega
    · have hfin : task.isInfinite = false := by simpa using hinf
      have hne : task ≠ t := by
        intro h
        rw [h, ht] at hfin
        exact Bool.noConfusion hfin
      by_cases hpos : 0 < task.repeat_
      · have hne2 : ({ task with repeat_ := task.repeat_ - 1 } : Task) ≠ t := by
          intro h
          have := congrArg Task.isInfinite h
          simp [hfin, ht] at this
        rw [hfin] at hne2
        simp [hfin, hpos, List.count_cons, hne, hne2]
      · simp [hfin, hpos, List.count_cons, hne]

theorem perm_requeue (tasks : List Task) (hall : ∀ t ∈ tasks, t.isInfinite = true) :
    (requeue tasks).Perm tasks := by
  cases tasks with
  | nil => exact List.Perm.refl _
  | cons task rest =>
    have hinf : task.isInfinite = true := hall task (List.mem_cons_self _ _)
    unfold requeue
    simp only [hinf, if_true]
    exact List.perm_append_singleton task rest

theorem TasksQueue.count_popSequence (vmIDs : List Int) (tq : TasksQueue) (vm : Int) (t : Task)
    (ht : t.isInfinite = true) :
    ((popSequence tq vmIDs).tasksOf vm).count t = (tq.tasksOf vm).count t := by
  induction vmIDs generalizing tq with
  | nil => rfl
  | cons vmID vmIDs ih =>
    have hstep : popSequence tq (vmID :: vmIDs) = popSequence (tq.getAndPop vmID).2 vmIDs := rfl
    rw [hstep, ih, TasksQueue.tasksOf_getAndPop]
    by_cases hv : vm = vmID
    · subst hv
      simp [count_requeue _ t ht]
    · simp [hv]

theorem TasksQueue.perm_popSequence (vmIDs : List Int) (tq : TasksQueue) (vm : Int)
    (hall : ∀ t ∈ tq.tasksOf vm, t.isInfinite = true) :
    ((popSequence tq vmIDs).tasksOf vm).Perm (tq.tasksOf vm) := by
  induction vmIDs generalizing tq with
  | nil => exact List.Perm.refl _
  | cons vmID vmIDs ih =>
    have hstep : popSequence tq (vmID :: vmIDs) = popSequence (tq.getAndPop vmID).2 vmIDs := rfl
    have hone : ((tq.getAndPop vmID).2.tasksOf vm).Perm (tq.tasksOf vm) := by
      rw [TasksQueue.tasksOf_getAndPop]
      by_cases hv : vm = vmID
      · subst hv
        simpa using perm_requeue _ hall
      · simp [hv]
    rw [hstep]
    refine List.Perm.trans (ih (tq.getAndPop vmID).2 ?_) hone
    intro t hmem
    exact hall t (hone.mem_iff.mp hmem)

theorem tasksOf_AddTasksByID (ProgramHash : Prog → String) (programs : List Prog)
    (tq : TasksQueue) (vmID : Int) (repeat_ : Int) :
    (AddTasksByID ProgramHash tq vmID programs repeat_).tasksOf vmID =
      tq.tasksOf vmID ++ programs.map (fun program => newTask ProgramHash program repeat_) := by
  induction programs generalizing tq with
  | nil => simp [AddTasksByID]
  | cons program programs ih =>
    have hstep : AddTasksByID ProgramHash tq vmID (program :: programs) repeat_ =
        AddTasksByID ProgramHash (tq.push vmID (newTask ProgramHash program repeat_)) vmID
          programs repeat_ := rfl
    rw [hstep, ih, TasksQueue.tasksOf_push_same]
    simp

/-- C3: after any finite sequence of `getAndPop` calls on any VM keys, every infinite task
occurs in each VM's sequence as often as before; a sequence made of infinite tasks only is a
permutation of what it was (same length, same multiset); and the sequence that
`AddTasksByID` with `InfinityFlag` builds on an empty queue stays a permutation of one task
per submitted program. -/
theorem TasksQueue.popSequence_keeps_infinite (tq : TasksQueue) (vmIDs : List Int) (vm : Int) :
    (∀ t : Task, t.isInfinite = true →
      ((popSequence tq vmIDs).tasksOf vm).count t = (tq.tasksOf vm).count t) ∧
    ((∀ t ∈ tq.tasksOf vm, t.isInfinite = true) →
      ((popSequence tq vmIDs).tasksOf vm).Perm (tq.tasksOf vm) ∧
      ((popSequence tq vmIDs).tasksOf vm).length = (tq.tasksOf vm).length) ∧
    (∀ (ProgramHash : Prog → String) (programs : List Prog),
      ((popSequence (AddTasksByID ProgramHash { queue := [] } vm programs InfinityFlag)
          vmIDs).tasksOf vm).Perm
        (programs.map (fun program => newTask ProgramHash program InfinityFlag))) := by
  refine ⟨fun t ht => TasksQueue.count_popSequence vmIDs tq vm t ht, ?_, ?_⟩
  · intro hall
    exact ⟨TasksQueue.perm_popSequence vmIDs tq vm hall,
      (TasksQueue.perm_popSequence vmIDs tq vm hall).length_eq⟩
  · intro ProgramHash programs
    have hq := tasksOf_AddTasksByID ProgramHash programs { queue := [] } vm InfinityFlag
    have hempty : TasksQueue.tasksOf { queue := [] } vm = [] := rfl
    rw [hempty, List.nil_append] at hq
    have hperm := TasksQueue.perm_popSequence vmIDs
      (AddTasksByID ProgramHash { queue := [] } vm programs InfinityFlag) vm (by
        rw [hq]
        intro t hmem
        obtain ⟨program, _, rfl⟩ := List.mem_map.mp hmem
        simp [newTask])
    rw [hq] at hperm
    exact hperm

/-- C3 at `sampleQueue` after the pops 0, 1, 0, 7, 0: the infinite task is still once in the
sequence of VM 0, and the all-infinite sequence of VM 1 is unchanged up to order. -/
theorem TasksQueue.popSequence_keeps_infinite_witness :
    infiniteTask.isInfinite = true ∧
    ((popSequence sampleQueue [0, 1, 0, 7, 0]).tasksOf 0).count infiniteTask = 1 ∧
    (∀ t ∈ sampleQueue.tasksOf 1, t.isInfinite = true) ∧
    ((popSequence sampleQueue [0, 1, 0, 7, 0]).tasksOf 1).Perm [infiniteTask] :=
  have hall : ∀ t ∈ sampleQueue.tasksOf 1, t.isInfinite = true := by
    intro t hmem
    have hq : sampleQueue.tasksOf 1 = [infiniteTask] := rfl
    rw [hq, List.mem_singleton] at hmem
    rw [hmem]
    rfl
  ⟨rfl,
    ((TasksQueue.popSequence_keeps_infinite sampleQueue [0, 1, 0, 7, 0] 0).1 infiniteTask rfl).trans
      (by decide),
    hall,
    ((TasksQueue.popSequence_keeps_infinite sampleQueue [0, 1, 0, 7, 0] 1).2.1 hall).1⟩

/-! ## TasksQueue: stop -/

/-- C2 at the failing input: with the same reproducer queued twice on VM 0, `stop` returns no
error, yet `contains` still answers `true` and the next `getAndPop` of VM 0 hands out the
stopped task. -/
theorem TasksQueue.stop_leaves_duplicate :
    duplicateQueue.tasksOf 0 =
      [newTask sampleHash sampleProg InfinityFlag, newTask sampleHash sampleProg InfinityFlag] ∧
    (duplicateQueue.stop "openreadclose").2 = none ∧
    (duplicateQueue.stop "openreadclose").1.contains "openreadclose" = true ∧
    ((duplicateQueue.stop "openreadclose").1.getAndPop 0).1 =
      Except.ok (newTask sampleHash sampleProg InfinityFlag) ∧
    (newTask sampleHash sampleProg InfinityFlag).id = "openreadclose" := by
  refine ⟨rfl, rfl, rfl, rfl, rfl⟩

/-! ## Go maps: folding a snapshot into a map -/

theorem GoMap.lookup_eq_none {κ ν : Type} [DecidableEq κ] (m : List (κ × ν)) (k : κ)
    (h : k ∉ GoMap.keys m) : GoMap.lookup m k = none := by
  induction m with
  | nil => rfl
  | cons e m ih =>
    obtain ⟨k', v'⟩ := e
    simp only [GoMap.keys, List.map_cons, List.mem_cons, not_or] at h
    have hk : ¬ k' = k := fun hk => h.1 hk.symm
    simp only [GoMap.lookup, hk, if_false]
    exact ih h.2

/-- Folding "read the binding, combine it with the entry, write it back" over a snapshot
with distinct keys: the binding of every key of the snapshot is combined once, every other
binding is kept. -/
theorem GoMap.lookup_foldl_upsert {κ ν ω : Type} [DecidableEq κ] (f : Option ν → ω → ν)
    (snapshot : List (κ × ω)) (m : List (κ × ν)) (hnd : (GoMap.keys snapshot).Nodup) (k : κ) :
    GoMap.lookup
        (snapshot.foldl (fun m e => GoMap.store m e.1 (f (GoMap.lookup m e.1) e.2)) m) k =
      match GoMap.lookup snapshot k with
      | none => GoMap.lookup m k
      | some w => some (f (GoMap.lookup m k) w) := by
  induction snapshot generalizing m with
  | nil => rfl
  | cons e snapshot ih =>
    obtain ⟨k0, w0⟩ := e
    simp only [GoMap.keys, List.map_cons, List.nodup_cons] at hnd
    simp only [List.foldl_cons]
    rw [ih _ hnd.2]
    by_cases hk : k0 = k
    · subst hk
      rw [GoMap.lookup_eq_none snapshot k0 hnd.1]
      simp [GoMap.lookup, GoMap.lookup_store_same]
    · have hk2 : k ≠ k0 := fun h => hk h.symm
      simp only [GoMap.lookup, hk, if_false, GoMap.lookup_store_other _ _ _ _ hk2]

/-! ## Statistics: LoadData -/

theorem lookup_loadErrors (errors : List (String × ErrorInfo))
    (snapshot : List (String × ErrorInfoJSON)) (hnd : (GoMap.keys snapshot).Nodup)
    (errorId : String) :
    GoMap.lookup (loadErrors errors snapshot) errorId =
      match GoMap.lookup snapshot errorId with
      | none => GoMap.lookup errors errorId
      | some info =>
        some { error := (GoMap.lookup errors errorId).elim info.Error ErrorInfo.error
               pools := (GoMap.lookup errors errorId).elim [] ErrorInfo.pools
               count := goAdd ((GoMap.lookup errors errorId).elim 0 ErrorInfo.count) info.Count } := by
  have hform : loadErrors errors snapshot =
      snapshot.foldl (fun m e => GoMap.store m e.1
        ((fun (cur : Option ErrorInfo) (info : ErrorInfoJSON) =>
          ({ error := cur.elim info.Error ErrorInfo.error
             pools := cur.elim [] ErrorInfo.pools
             count := goAdd (cur.elim 0 ErrorInfo.count) info.Count } : ErrorInfo))
          (GoMap.lookup m e.1) e.2)) errors := by
    unfold loadErrors
    congr 1
    funext m e
    cases GoMap.lookup m e.1 <;> rfl
  rw [hform]
  have key := GoMap.lookup_foldl_upsert
    (fun (cur : Option ErrorInfo) (info : ErrorInfoJSON) =>
      ({ error := cur.elim info.Error ErrorInfo.error
         pools := cur.elim [] ErrorInfo.pools
         count := goAdd (cur.elim 0 ErrorInfo.count) info.Count } : ErrorInfo))
    snapshot errors hnd errorId
  cases hs : GoMap.lookup snapshot errorId <;> simp only [hs] at key ⊢ <;> exact key

theorem lookup_foldl_loadResult (results : List (String × Result))
    (snapshot : List (String × ResultJSON)) (hnd : (GoMap.keys snapshot).Nodup)
    (programId : String) :
    GoMap.lookup (snapshot.foldl loadResult results) programId =
      match GoMap.lookup snapshot programId with
      | none => GoMap.lookup results programId
      | some result =>
        some { program := (GoMap.lookup results programId).elim result.Program Result.program
               totalRuns :=
                 goAdd ((GoMap.lookup results programId).elim 0 Result.totalRuns) result.TotalRuns
               successfulRuns :=
                 goAdd ((GoMap.lookup results programId).elim 0 Result.successfulRuns)
                   result.SuccessfulRuns
               errorRuns :=
                 goAdd ((GoMap.lookup results programId).elim 0 Result.errorRuns) result.ErrorRuns
               errors :=
                 loadErrors ((GoMap.lookup results programId).elim [] Result.errors)
                   result.Errors } := by
  have hform : loadResult =
      fun (m : List (String × Result)) (e : String × ResultJSON) => GoMap.store m e.1
        ((fun (cur : Option Result) (result : ResultJSON) =>
          ({ program := cur.elim result.Program Result.program
             totalRuns := goAdd (cur.elim 0 Result.totalRuns) result.TotalRuns
             successfulRuns := goAdd (cur.elim 0 Result.successfulRuns) result.SuccessfulRuns
             errorRuns := goAdd (cur.elim 0 Result.errorRuns) result.ErrorRuns
             errors := loadErrors (cur.elim [] Result.errors) result.Errors } : Result))
          (GoMap.lookup m e.1) e.2) := by
    funext m e
    unfold loadResult
    cases GoMap.lookup m e.1 <;> rfl
  rw [hform]
  have key := GoMap.lookup_foldl_upsert
    (fun (cur : Option Result) (result : ResultJSON) =>
      ({ program := cur.elim result.Program Result.program
         totalRuns := goAdd (cur.elim 0 Result.totalRuns) result.TotalRuns
         successfulRuns := goAdd (cur.elim 0 Result.successfulRuns) result.SuccessfulRuns
         errorRuns := goAdd (cur.elim 0 Result.errorRuns) result.ErrorRuns
         errors := loadErrors (cur.elim [] Result.errors) result.Errors } : Result))
    snapshot results hnd programId
  cases hs : GoMap.lookup snapshot programId <;> simp only [hs] at key ⊢ <;> exact key

/-- C7: `LoadData` of a snapshot with distinct keys adds (Go `+`) the three totals; for every
program id of the snapshot it adds the three counters to the `Result` of that id, created
with the program text of the snapshot when missing; for every error id of that result it adds
`Count` to the `ErrorInfo` of that id, created with the text of the snapshot when missing, and
keeps its text and per-pool slice otherwise; every result and every error the snapshot does
not name is unchanged.  Loading totals (10, 7, 3) with one error of count 3 into a fresh
state gives totals (10, 7, 3) and count 3. -/
theorem Statistics.LoadData_adds (stats : Statistics) (jsonStats : StatisticsJSON)
    (hkeys : jsonStats.distinctKeys) :
    ((stats.LoadData jsonStats).totalRuns = goAdd stats.totalRuns jsonStats.TotalRuns ∧
     (stats.LoadData jsonStats).successfulRuns =
       goAdd stats.successfulRuns jsonStats.SuccessfulRuns ∧
     (stats.LoadData jsonStats).errorRuns = goAdd stats.errorRuns jsonStats.ErrorRuns) ∧
    (∀ (programId : String) (result : ResultJSON),
      GoMap.lookup jsonStats.Results programId = some result →
      ∃ merged : Result,
        GoMap.lookup (stats.LoadData jsonStats).results programId = some merged ∧
        merged.program =
          (GoMap.lookup stats.results programId).elim result.Program Result.program ∧
        merged.totalRuns =
          goAdd ((GoMap.lookup stats.results programId).elim 0 Result.totalRuns)
            result.TotalRuns ∧
        merged.successfulRuns =
          goAdd ((GoMap.lookup stats.results programId).elim 0 Result.successfulRuns)
            result.SuccessfulRuns ∧
        merged.errorRuns =
          goAdd ((GoMap.lookup stats.results programId).elim 0 Result.errorRuns)
            result.ErrorRuns ∧
        (∀ (errorId : String) (info : ErrorInfoJSON),
          GoMap.lookup result.Errors errorId = some info →
          ∃ mergedInfo : ErrorInfo,
            GoMap.lookup merged.errors errorId = some mergedInfo ∧
            mergedInfo.count =
              goAdd ((GoMap.lookup ((GoMap.lookup stats.results programId).elim []
                Result.errors) errorId).elim 0 ErrorInfo.count) info.Count ∧
            mergedInfo.error =
              (GoMap.lookup ((GoMap.lookup stats.results programId).elim []
                Result.errors) errorId).elim info.Error ErrorInfo.error ∧
            mergedInfo.pools =
              (GoMap.lookup ((GoMap.lookup stats.results programId).elim []
                Result.errors) errorId).elim [] ErrorInfo.pools) ∧
        (∀ errorId : String, GoMap.lookup result.Errors errorId = none →
          GoMap.lookup merged.errors errorId =
            GoMap.lookup ((GoMap.lookup stats.results programId).elim [] Result.errors)
              errorId)) ∧
    (∀ programId : String, GoMap.lookup jsonStats.Results programId = none →
      GoMap.lookup (stats.LoadData jsonStats).results programId =
        GoMap.lookup stats.results programId) ∧
    (((MakeStatistics 3).LoadData sampleSnapshot).totalRuns = 10 ∧
     ((MakeStatistics 3).LoadData sampleSnapshot).successfulRuns = 7 ∧
     ((MakeStatistics 3).LoadData sampleSnapshot).errorRuns = 3 ∧
     ((GoMap.lookup ((MakeStatistics 3).LoadData sampleSnapshot).results "P").bind
        (fun r => (GoMap.lookup r.errors "#BUG: foo").map ErrorInfo.count)) = some 3) := by
  refine ⟨⟨rfl, rfl, rfl⟩, ?_, ?_, by decide⟩
  · intro programId result hres
    have hlook := lookup_foldl_loadResult stats.results jsonStats.Results hkeys.1 programId
    rw [hres] at hlook
    have herrs : (GoMap.keys result.Errors).Nodup :=
      hkeys.2 (programId, result) (GoMap.lookup_mem _ _ _ hres)
    refine ⟨_, hlook, rfl, rfl, rfl, rfl, ?_, ?_⟩
    · intro errorId info hinfo
      have hel := lookup_loadErrors
        ((GoMap.lookup stats.results programId).elim [] Result.errors) result.Errors herrs
        errorId
      rw [hinfo] at hel
      exact ⟨_, hel, rfl, rfl, rfl⟩
    · intro errorId hnone
      have hel := lookup_loadErrors
        ((GoMap.lookup stats.results programId).elim [] Result.errors) result.Errors herrs
        errorId
      rw [hnone] at hel
      exact hel
  · intro programId hnone
    have hlook := lookup_foldl_loadResult stats.results jsonStats.Results hkeys.1 programId
    rw [hnone] at hlook
    exact hlook

/-- C7 at `sampleSnapshot` loaded into `loadedThenFailed`: the totals become (21, 14, 7). -/
theorem Statistics.LoadData_adds_witness :
    sampleSnapshot.distinctKeys ∧
    (loadedThenFailed.LoadData sampleSnapshot).totalRuns = goAdd 11 10 ∧
    (loadedThenFailed.LoadData sampleSnapshot).successfulRuns = goAdd 7 7 ∧
    (loadedThenFailed.LoadData sampleSnapshot).errorRuns = goAdd 4 3 :=
  have hkeys : sampleSnapshot.distinctKeys := by
    unfold StatisticsJSON.distinctKeys
    decide
  ⟨hkeys, (Statistics.LoadData_adds loadedThenFailed sampleSnapshot hkeys).1⟩

/-- C5 at the failing input: every `ErrorInfo` of `sampleSnapshot` has `Count` equal to the
sum of `Pools`, yet after `LoadData` into a fresh state the error has count 3 and an empty
per-pool slice, whose sum is 0. -/
theorem Statistics.LoadData_count_without_pools :
    (∀ entry ∈ sampleSnapshot.Results, ∀ e ∈ entry.2.Errors, e.2.Count = goSum e.2.Pools) ∧
    ((MakeStatistics 3).LoadData sampleSnapshot).results =
      [("P", { program := "openreadclose", totalRuns := 10, successfulRuns := 7, errorRuns := 3
               errors := [("#BUG: foo", { error := "BUG: foo", pools := [], count := 3 })] })] ∧
    (3 : Int) ≠ goSum [] := by
  decide

/-- C6 at the failing input: one failed run reported to a fresh state with two pools is
rendered with `Pools = [1, 0]`; loading that snapshot into a fresh state with two pools and
rendering again gives `Pools = []`, so the two snapshots differ. -/
theorem Statistics.roundtrip_loses_pools :
    Statistics.addResult sampleHash sampleErrorHash [("P", sampleProg)] (MakeStatistics 2)
      { Pool := 0, VM := 0, TaskID := "P", Hanged := false, Error := some "BUG: foo" } =
      some failedOnce ∧
    failedOnce.JSON =
      { TotalRuns := 1, SuccessfulRuns := 0, ErrorRuns := 1
        Results := [("P",
          { Program := "openreadclose", TotalRuns := 1, SuccessfulRuns := 0, ErrorRuns := 1
            Errors := [("#BUG: foo", { Error := "BUG: foo", Pools := [1, 0], Count := 1 })] })] } ∧
    ((MakeStatistics 2).LoadData failedOnce.JSON).JSON =
      { TotalRuns := 1, SuccessfulRuns := 0, ErrorRuns := 1
        Results := [("P",
          { Program := "openreadclose", TotalRuns := 1, SuccessfulRuns := 0, ErrorRuns := 1
            Errors := [("#BUG: foo", { Error := "BUG: foo", Pools := [], Count := 1 })] })] } ∧
    ((MakeStatistics 2).LoadData failedOnce.JSON).JSON ≠ failedOnce.JSON := by
  decide

/-! ## Statistics: addResult with an error -/

theorem GoMap.keys_store {κ ν : Type} [DecidableEq κ] (m : List (κ × ν)) (k : κ) (v : ν) :
    GoMap.keys (GoMap.store m k v) =
      if k ∈ GoMap.keys m then GoMap.keys m else GoMap.keys m ++ [k] := by
  induction m with
  | nil => simp [GoMap.store, GoMap.keys]
  | cons e m ih =>
    obtain ⟨k', v'⟩ := e
    by_cases hk : k' = k
    · subst hk
      simp [GoMap.store, GoMap.keys]
    · have hk2 : ¬ k = k' := fun h => hk h.symm
      simp only [GoMap.keys] at ih
      simp only [GoMap.store, hk, if_false, GoMap.keys, List.map_cons, List.mem_cons, hk2,
        false_or, ih]
      split <;> simp

theorem GoMap.nodup_keys_store {κ ν : Type} [DecidableEq κ] (m : List (κ × ν)) (k : κ) (v : ν)
    (h : (GoMap.keys m).Nodup) : (GoMap.keys (GoMap.store m k v)).Nodup := by
  rw [GoMap.keys_store]
  by_cases hk : k ∈ GoMap.keys m
  · simpa [hk] using h
  · simp only [hk, if_false]
    rw [List.nodup_append]
    refine ⟨h, List.nodup_singleton k, ?_⟩
    intro a ha hb
    rw [List.mem_singleton] at hb
    subst hb
    exact hk ha

theorem GoMap.count_keys_store {κ ν : Type} [DecidableEq κ] (m : List (κ × ν)) (k : κ) (v : ν)
    (h : (GoMap.keys m).Nodup) : (GoMap.keys (GoMap.store m k v)).count k = 1 :=
  List.count_eq_one_of_mem (GoMap.nodup_keys_store m k v h)
    (by
      rw [GoMap.keys_store]
      by_cases hk : k ∈ GoMap.keys m
      · simp [hk]
      · simp [hk])

theorem incrAt_some (pools : List Int) (p : Int) (h0 : 0 ≤ p) (hlt : p.toNat < pools.length) :
    incrAt pools p = some (pools.set p.toNat (goAdd (pools.getD p.toNat 0) 1)) := by
  unfold incrAt
  simp [h0, hlt]

theorem incrAt_length (pools next : List Int) (p : Int) (h : incrAt pools p = some next) :
    next.length = pools.length := by
  unfold incrAt at h
  split at h
  · simp only [Option.some.injEq] at h
    rw [← h, List.length_set]
  · exact Option.noConfusion h

theorem ensureError_sized (n : Nat) (errors : List (String × ErrorInfo)) (errorId output : String)
    (h : ∀ e ∈ errors, e.2.pools.length = n) :
    (ensureError n errors errorId output).pools.length = n := by
  unfold ensureError
  cases hl : GoMap.lookup errors errorId with
  | none => simp
  | some info => exact h _ (GoMap.lookup_mem _ _ _ hl)

theorem Statistics.ensureResult_sized (Serialize : Prog → String)
    (programs : List (String × Prog)) (stats : Statistics) (programId : String)
    (current : Result) (n : Nat) (hs : stats.sized n)
    (h : stats.ensureResult Serialize programs programId = some current) :
    (∀ e ∈ current.errors, e.2.pools.length = n) ∧ (GoMap.keys current.errors).Nodup := by
  rcases Statistics.ensureResult_cases Serialize programs stats programId current h with
    hl | ⟨_, program, _, hc⟩
  · exact hs.2 _ (GoMap.lookup_mem _ _ _ hl)
  · rw [hc]
    exact ⟨fun e he => by simp at he, List.nodup_nil⟩

theorem Statistics.addResult_sized (Serialize : Prog → String) (Hash : String → String)
    (programs : List (String × Prog)) (stats next : Statistics) (args : ProgramArgs) (n : Nat)
    (hs : stats.sized n)
    (h : Statistics.addResult Serialize Hash programs stats args = some next) :
    next.sized n := by
  obtain ⟨current, hcur, hcase⟩ :=
    Statistics.addResult_cases Serialize Hash programs stats next args h
  have hc := Statistics.ensureResult_sized Serialize programs stats args.TaskID current n hs hcur
  rcases hcase with ⟨_, hnext⟩ | ⟨output, pools, _, hincr, hnext⟩
  · rw [hnext]
    exact ⟨hs.1, GoMap.forall_store
      (fun r : Result => (∀ e ∈ r.errors, e.2.pools.length = n) ∧ (GoMap.keys r.errors).Nodup)
      _ _ _ hs.2 hc⟩
  · rw [hnext]
    refine ⟨hs.1, GoMap.forall_store
      (fun r : Result => (∀ e ∈ r.errors, e.2.pools.length = n) ∧ (GoMap.keys r.errors).Nodup)
      _ _ _ hs.2 ⟨?_, GoMap.nodup_keys_store _ _ _ hc.2⟩⟩
    refine GoMap.forall_store (fun i : ErrorInfo => i.pools.length = n) _ _ _ hc.1 ?_
    have hlen := incrAt_length _ _ _ hincr
    have hens := ensureError_sized stats.pools current.errors (Hash output) output
      (by rw [hs.1]; exact hc.1)
    show pools.length = n
    rw [hlen, hens, hs.1]

theorem Statistics.built_sized (Serialize : Prog → String) (Hash : String → String) (n : Nat)
    (stats : Statistics) (h : Statistics.Reachable Serialize Hash (fun _ => False) n stats) :
    stats.sized n := by
  induction h with
  | make => exact ⟨rfl, fun e he => by simp [MakeStatistics] at he⟩
  | stepAdd stats next programs args _ hadd ih =>
    exact Statistics.addResult_sized Serialize Hash programs stats next args n ih hadd
  | stepLoad stats jsonStats _ hj _ => exact False.elim hj

theorem Statistics.ensureResult_registered (Serialize : Prog → String)
    (programs : List (String × Prog)) (stats : Statistics) (programId : String) (program : Prog)
    (hreg : GoMap.lookup programs programId = some program) :
    ∃ current, stats.ensureResult Serialize programs programId = some current ∧
      current.errors = stats.errorsOf programId ∧
      current.errorRuns = (GoMap.lookup stats.results programId).elim 0 Result.errorRuns := by
  unfold Statistics.ensureResult Statistics.errorsOf
  cases hl : GoMap.lookup stats.results programId with
  | some current => exact ⟨current, rfl, rfl, rfl⟩
  | none =>
    simp only [hreg]
    exact ⟨_, rfl, rfl, rfl⟩

/-- C8: in a state built by `addResult` alone with `n` pools, a report for a registered program
with error text `output` from a pool `0 <= pool < n` is accepted; afterwards the program has
exactly one `ErrorInfo` under the key `Hash output` (created with the text and `n` zeros when it
was absent), its count and its entry for `pool` are one higher, its other per-pool entries and
its text are as before, every other `ErrorInfo` and every other `Result` is unchanged, and the
global and per-result `errorRuns` are one higher.  Two reports of one text from the pools 0 and
1 give `Pools = [1, 1]` and `Count = 2`. -/
theorem Statistics.addResult_error (Serialize : Prog → String) (Hash : String → String)
    (n : Nat) (stats : Statistics) (programs : List (String × Prog)) (programId : String)
    (program : Prog) (output : String) (pool vm : Int) (hanged : Bool)
    (hbuilt : Statistics.Reachable Serialize Hash (fun _ => False) n stats)
    (hreg : GoMap.lookup programs programId = some program)
    (h0 : 0 ≤ pool) (hlt : pool < n) :
    (∃ next info,
      Statistics.addResult Serialize Hash programs stats
        { Pool := pool, VM := vm, TaskID := programId, Hanged := hanged, Error := some output } =
        some next ∧
      next.errorRuns = goAdd stats.errorRuns 1 ∧
      (GoMap.lookup next.results programId).map Result.errorRuns =
        some (goAdd ((GoMap.lookup stats.results programId).elim 0 Result.errorRuns) 1) ∧
      next.errorInfo programId (Hash output) = some info ∧
      (GoMap.keys (next.errorsOf programId)).count (Hash output) = 1 ∧
      info.error = (stats.errorInfo programId (Hash output)).elim output ErrorInfo.error ∧
      info.count = goAdd ((stats.errorInfo programId (Hash output)).elim 0 ErrorInfo.count) 1 ∧
      info.pools.length = n ∧
      (∀ i : Nat, i < n →
        info.pools.getD i 0 =
          if i = pool.toNat then
            goAdd (((stats.errorInfo programId (Hash output)).elim (List.replicate n 0)
              ErrorInfo.pools).getD i 0) 1
          else
            ((stats.errorInfo programId (Hash output)).elim (List.replicate n 0)
              ErrorInfo.pools).getD i 0) ∧
      (∀ errorId : String, errorId ≠ Hash output →
        next.errorInfo programId errorId = stats.errorInfo programId errorId) ∧
      (∀ other : String, other ≠ programId →
        GoMap.lookup next.results other = GoMap.lookup stats.results other)) ∧
    ((Statistics.addResult Serialize Hash [("P", sampleProg)] (MakeStatistics 2)
        { Pool := 0, VM := 0, TaskID := "P", Hanged := false, Error := some "BUG: foo" }).bind
      (fun stats => (Statistics.addResult Serialize Hash [("P", sampleProg)] stats
        { Pool := 1, VM := 0, TaskID := "P", Hanged := false, Error := some "BUG: foo" }).bind
        (fun stats => stats.errorInfo "P" (Hash "BUG: foo"))) =
      some { error := "BUG: foo", pools := [1, 1], count := 2 }) := by
  constructor
  · have hs := Statistics.built_sized Serialize Hash n stats hbuilt
    obtain ⟨current, hcur, herrs, hruns⟩ :=
      Statistics.ensureResult_registered Serialize programs stats programId program hreg
    have hc := Statistics.ensureResult_sized Serialize programs stats programId current n hs hcur
    have hlen : (ensureError stats.pools current.errors (Hash output) output).pools.length = n :=
      (ensureError_sized stats.pools current.errors (Hash output) output
        (by rw [hs.1]; exact hc.1)).trans hs.1
    have hens : ensureError stats.pools current.errors (Hash output) output =
        { error := (stats.errorInfo programId (Hash output)).elim output ErrorInfo.error
          pools := (stats.errorInfo programId (Hash output)).elim (List.replicate n 0)
            ErrorInfo.pools
          count := (stats.errorInfo programId (Hash output)).elim 0 ErrorInfo.count } := by
      unfold ensureError Statistics.errorInfo
      rw [herrs, hs.1]
      cases GoMap.lookup (stats.errorsOf programId) (Hash output) <;> rfl
    have hidx : pool.toNat < n := by omega
    have hadd : Statistics.addResult Serialize Hash programs stats
        { Pool := pool, VM := vm, TaskID := programId, Hanged := hanged, Error := some output } =
        some (stats.withError programId current (Hash output)
          (ensureError stats.pools current.errors (Hash output) output)
          ((ensureError stats.pools current.errors (Hash output) output).pools.set pool.toNat
            (goAdd ((ensureError stats.pools current.errors (Hash output) output).pools.getD
              pool.toNat 0) 1))) := by
      unfold Statistics.addResult
      simp only [hcur]
      rw [incrAt_some _ pool h0 (by rw [hlen]; exact hidx)]
    generalize ensureError stats.pools current.errors (Hash output) output = info0
      at hlen hens hadd
    refine ⟨_, ErrorInfo.mk info0.error
        (info0.pools.set pool.toNat (goAdd (info0.pools.getD pool.toNat 0) 1))
        (goAdd info0.count 1),
      hadd, rfl, ?_, ?_, ?_, ?_, ?_, ?_, ?_, ?_, ?_⟩
    · simp [Statistics.withError, GoMap.lookup_store_same, hruns]
    · simp only [Statistics.errorInfo, Statistics.errorsOf, Statistics.withError,
        GoMap.lookup_store_same, Option.elim]
    · simp only [Statistics.errorsOf, Statistics.withError, GoMap.lookup_store_same, Option.elim]
      exact GoMap.count_keys_store _ _ _ hc.2
    · rw [hens]
    · rw [hens]
    · show (info0.pools.set pool.toNat _).length = n
      rw [List.length_set, hlen]
    · intro i hi
      show (info0.pools.set pool.toNat _).getD i 0 = _
      rw [hens] at hlen ⊢
      simp only at hlen ⊢
      by_cases hip : i = pool.toNat
      · subst hip
        simp [List.getD_eq_getElem?_getD, List.getElem?_set, hlen, hidx]
      · have hpi : ¬ pool.toNat = i := fun h => hip h.symm
        simp [List.getD_eq_getElem?_getD, List.getElem?_set, hip, hpi]
    · intro errorId hne
      simp only [Statistics.errorInfo, Statistics.errorsOf, Statistics.withError,
        GoMap.lookup_store_same, Option.elim, GoMap.lookup_store_other _ _ _ _ hne]
      rw [herrs]
      rfl
    · intro other hne
      simp only [Statistics.withError, GoMap.lookup_store_other _ _ _ _ hne]
  · simp [Statistics.addResult, Statistics.ensureResult, MakeStatistics, GoMap.lookup,
      GoMap.store, ensureError, incrAt, Statistics.withError, Statistics.errorInfo,
      Statistics.errorsOf, goAdd, wrap64]

/-- C8 at `failedOnce` (one failed run from pool 0) and a second report of the same text from
pool 1. -/
theorem Statistics.addResult_error_witness :
    Statistics.Reachable sampleHash sampleErrorHash (fun _ => False) 2 failedOnce ∧
    GoMap.lookup [("P", sampleProg)] "P" = some sampleProg ∧
    (0 : Int) ≤ 1 ∧ (1 : Int) < (2 : Nat) ∧
    ∃ next info,
      Statistics.addResult sampleHash sampleErrorHash [("P", sampleProg)] failedOnce
        { Pool := 1, VM := 0, TaskID := "P", Hanged := false, Error := some "BUG: foo" } =
        some next ∧
      next.errorRuns = goAdd failedOnce.errorRuns 1 ∧
      next.errorInfo "P" (sampleErrorHash "BUG: foo") = some info ∧
      info.pools.length = 2 :=
  have hreach : Statistics.Reachable sampleHash sampleErrorHash (fun _ => False) 2 failedOnce :=
    Statistics.Reachable.stepAdd (MakeStatistics 2) failedOnce [("P", sampleProg)]
      { Pool := 0, VM := 0, TaskID := "P", Hanged := false, Error := some "BUG: foo" }
      Statistics.Reachable.make (by decide)
  have key := (Statistics.addResult_error sampleHash sampleErrorHash 2 failedOnce
    [("P", sampleProg)] "P" sampleProg "BUG: foo" 1 0 false hreach rfl (by decide)
    (by decide)).1
  ⟨hreach, rfl, by decide, by decide,
    key.elim fun next h => h.elim fun info h2 =>
      ⟨next, info, h2.1, h2.2.1, h2.2.2.2.1, h2.2.2.2.2.2.2.2.1⟩⟩

/-! ## Mutate -/

theorem mutateCalls_forall₂ (draws : Nat → Int) (hdraws : ∀ i, 0 ≤ draws i ∧ draws i < 20)
    (calls : List Call) (next : Nat) :
    List.Forall₂
      (fun (before after : Call) =>
        after.body = before.body ∧
        (0 < before.Props.FailNth → 10 ≤ after.Props.FailNth ∧ after.Props.FailNth ≤ 29) ∧
        (before.Props.FailNth ≤ 0 → after.Props.FailNth = before.Props.FailNth))
      calls (mutateCalls draws next calls).1 := by
  induction calls generalizing next with
  | nil => exact List.Forall₂.nil
  | cons call calls ih =>
    unfold mutateCalls
    by_cases hpos : call.Props.FailNth > 0
    · simp only [hpos, if_true]
      refine List.Forall₂.cons ⟨rfl, fun _ => ?_, fun hle => absurd hpos (not_lt.mpr hle)⟩
        (ih (next + 1))
      have hd := hdraws next
      show 10 ≤ goAdd (draws next) 10 ∧ goAdd (draws next) 10 ≤ 29
      unfold goAdd wrap64
      omega
    · simp only [hpos, if_false]
      exact List.Forall₂.cons ⟨rfl, fun h => absurd h hpos, fun _ => rfl⟩ (ih next)

/-- C9: whatever `rand.Intn(20)` returns (values in [0, 20)), `Mutate` keeps the number and
the order of the calls (every call keeps its body), gives every call whose `FailNth` was
positive a `FailNth` in [10, 29], and leaves every other `FailNth` as it was. -/
theorem Mutate_failNth (draws : Nat → Int) (next : Nat) (program : Prog)
    (hdraws : ∀ i, 0 ≤ draws i ∧ draws i < 20) :
    (Mutate draws next program).1.Calls.length = program.Calls.length ∧
    List.Forall₂
      (fun (before after : Call) =>
        after.body = before.body ∧
        (0 < before.Props.FailNth → 10 ≤ after.Props.FailNth ∧ after.Props.FailNth ≤ 29) ∧
        (before.Props.FailNth ≤ 0 → after.Props.FailNth = before.Props.FailNth))
      program.Calls (Mutate draws next program).1.Calls := by
  have h := mutateCalls_forall₂ draws hdraws program.Calls next
  exact ⟨h.length_eq.symm, h⟩

/-- C9 at `sampleProg` (fault injection indices 3, 0, -1) when every draw is 19: the indices
become 29, 0, -1. -/
theorem Mutate_failNth_witness :
    (∀ i : Nat, 0 ≤ sampleDraws i ∧ sampleDraws i < 20) ∧
    ((Mutate sampleDraws 0 sampleProg).1.Calls.map (fun call => call.Props.FailNth)) =
      [29, 0, -1] ∧
    (Mutate sampleDraws 0 sampleProg).1.Calls.length = sampleProg.Calls.length :=
  have hdraws : ∀ i : Nat, 0 ≤ sampleDraws i ∧ sampleDraws i < 20 :=
    fun _ => ⟨(by decide : (0 : Int) ≤ 19), (by decide : (19 : Int) < 20)⟩
  ⟨hdraws, by decide, (Mutate_failNth sampleDraws 0 sampleProg hdraws).1⟩

/-! ## Submitting tasks: which repeat values mean "forever" -/

theorem tasksOf_AddTasksByID_other (ProgramHash : Prog → String) (programs : List Prog)
    (tq : TasksQueue) (vmID vm : Int) (repeat_ : Int) (hne : vm ≠ vmID) :
    (AddTasksByID ProgramHash tq vmID programs repeat_).tasksOf vm = tq.tasksOf vm := by
  induction programs generalizing tq with
  | nil => rfl
  | cons program programs ih =>
    have hstep : AddTasksByID ProgramHash tq vmID (program :: programs) repeat_ =
        AddTasksByID ProgramHash (tq.push vmID (newTask ProgramHash program repeat_)) vmID
          programs repeat_ := rfl
    rw [hstep, ih, TasksQueue.tasksOf_push_other _ _ _ _ hne]

theorem mem_tasksOf_AddTasksByID (ProgramHash : Prog → String) (programs : List Prog)
    (tq : TasksQueue) (vmID vm : Int) (repeat_ : Int) (t : Task)
    (h : t ∈ (AddTasksByID ProgramHash tq vmID programs repeat_).tasksOf vm) :
    t ∈ tq.tasksOf vm ∨ ∃ program ∈ programs, t = newTask ProgramHash program repeat_ := by
  by_cases hv : vm = vmID
  · subst hv
    rw [tasksOf_AddTasksByID, List.mem_append, List.mem_map] at h
    rcases h with h | ⟨program, hp, rfl⟩
    · exact Or.inl h
    · exact Or.inr ⟨program, hp, rfl⟩
  · rw [tasksOf_AddTasksByID_other _ _ _ _ _ _ hv] at h
    exact Or.inl h

theorem mem_tasksOf_AddTasks (ProgramHash : Prog → String) (analyzer : Analyzer)
    (programs : List Prog) (repeat_ : Int) (vm : Int) (t : Task)
    (h : t ∈ (AddTasks ProgramHash analyzer programs repeat_).tasksQueue.tasksOf vm) :
    t ∈ analyzer.tasksQueue.tasksOf vm ∨
      ∃ program ∈ programs, t = newTask ProgramHash program repeat_ := by
  have inner : ∀ (poolId : Int) (vmIDs : List Nat) (q : TasksQueue),
      t ∈ (vmIDs.foldl (fun q (vmID : Nat) =>
        AddTasksByID ProgramHash q (vmKey poolId vmID) programs repeat_) q).tasksOf vm →
      t ∈ q.tasksOf vm ∨ ∃ program ∈ programs, t = newTask ProgramHash program repeat_ := by
    intro poolId vmIDs
    induction vmIDs with
    | nil => exact fun q hq => Or.inl hq
    | cons vmID vmIDs ih =>
      intro q hq
      rcases ih _ hq with h1 | h1
      · exact mem_tasksOf_AddTasksByID _ _ _ _ _ _ _ h1
      · exact Or.inr h1
  have outer : ∀ (pools : List (Int × Nat)) (q : TasksQueue),
      t ∈ (pools.foldl (fun q pool => (List.range pool.2).foldl (fun q (vmID : Nat) =>
        AddTasksByID ProgramHash q (vmKey pool.1 vmID) programs repeat_) q) q).tasksOf vm →
      t ∈ q.tasksOf vm ∨ ∃ program ∈ programs, t = newTask ProgramHash program repeat_ := by
    intro pools
    induction pools with
    | nil => exact fun q hq => Or.inl hq
    | cons pool pools ih =>
      intro q hq
      rcases ih _ hq with h1 | h1
      · exact inner pool.1 (List.range pool.2) q h1
      · exact Or.inr h1
  exact outer analyzer.pools analyzer.tasksQueue h

theorem flatten_replicate_add (m n : Nat) (block : List Task) :
    (List.replicate (m + n) block).flatten =
      (List.replicate m block).flatten ++ (List.replicate n block).flatten := by
  induction m with
  | zero => simp
  | succ m ih =>
    have h : m + 1 + n = (m + n) + 1 := by omega
    rw [h, List.replicate_succ, List.replicate_succ, List.flatten_cons, List.flatten_cons, ih,
      List.append_assoc]

theorem tasksOf_foldl_AddTasksByID (ProgramHash : Prog → String) (programs : List Prog)
    (repeat_ : Int) (keys : List Int) (tq : TasksQueue) (key : Int) :
    (keys.foldl (fun q k => AddTasksByID ProgramHash q k programs repeat_) tq).tasksOf key =
      tq.tasksOf key ++
        (List.replicate (keys.count key)
          (programs.map (fun program => newTask ProgramHash program repeat_))).flatten := by
  induction keys generalizing tq with
  | nil => simp
  | cons k keys ih =>
    rw [List.foldl_cons, ih]
    by_cases hk : key = k
    · subst hk
      rw [tasksOf_AddTasksByID, List.count_cons_self, Nat.add_comm, flatten_replicate_add]
      simp
    · have hk2 : ¬ (k == key) = true := by simpa using fun h : k = key => hk h.symm
      rw [tasksOf_AddTasksByID_other _ _ _ _ _ _ hk, List.count_cons]
      simp [hk2]

theorem tasksOf_AddTasks (ProgramHash : Prog → String) (analyzer : Analyzer)
    (programs : List Prog) (repeat_ : Int) (key : Int) :
    (AddTasks ProgramHash analyzer programs repeat_).tasksQueue.tasksOf key =
      analyzer.tasksQueue.tasksOf key ++
        (List.replicate (pushesTo analyzer.pools key)
          (programs.map (fun program => newTask ProgramHash program repeat_))).flatten := by
  have outer : ∀ (pools : List (Int × Nat)) (q : TasksQueue),
      (pools.foldl (fun q pool => (List.range pool.2).foldl (fun q (vmID : Nat) =>
        AddTasksByID ProgramHash q (vmKey pool.1 vmID) programs repeat_) q) q).tasksOf key =
      q.tasksOf key ++
        (List.replicate (pushesTo pools key)
          (programs.map (fun program => newTask ProgramHash program repeat_))).flatten := by
    intro pools
    induction pools with
    | nil => intro q; simp [pushesTo]
    | cons pool pools ih =>
      intro q
      rw [List.foldl_cons, ih]
      have hinner : ((List.range pool.2).foldl (fun q (vmID : Nat) =>
          AddTasksByID ProgramHash q (vmKey pool.1 vmID) programs repeat_) q) =
          (((List.range pool.2).map (fun vmID : Nat => vmKey pool.1 vmID)).foldl
            (fun q k => AddTasksByID ProgramHash q k programs repeat_) q) := by
        rw [List.foldl_map]
      rw [hinner, tasksOf_foldl_AddTasksByID]
      have hsum : pushesTo (pool :: pools) key =
          ((List.range pool.2).map (fun vmID : Nat => vmKey pool.1 vmID)).count key +
            pushesTo pools key := by
        simp [pushesTo]
      rw [hsum, flatten_replicate_add, List.append_assoc]
  exact outer analyzer.pools analyzer.tasksQueue

theorem pushesTo_pos (pools : List (Int × Nat)) (pool : Int × Nat) (vmID : Nat)
    (hpool : pool ∈ pools) (hvm : vmID < pool.2) :
    0 < pushesTo pools (vmKey pool.1 vmID) := by
  induction pools with
  | nil => simp at hpool
  | cons p pools ih =>
    have hsum : pushesTo (p :: pools) (vmKey pool.1 vmID) =
        ((List.range p.2).map (fun v : Nat => vmKey p.1 v)).count (vmKey pool.1 vmID) +
          pushesTo pools (vmKey pool.1 vmID) := by
      simp [pushesTo]
    rw [hsum]
    rcases List.mem_cons.mp hpool with h | h
    · subst h
      have hmem : vmKey pool.1 vmID ∈ (List.range pool.2).map (fun v : Nat => vmKey pool.1 v) :=
        List.mem_map.mpr ⟨vmID, List.mem_range.mpr hvm, rfl⟩
      have := List.count_pos_iff.mpr hmem
      omega
    · have := ih h
      omega

/-- C10 refuted at `repeat = -2`: the task that `AddTasksByID` pushes is not infinite, the
first `getAndPop` returns it and leaves the queue of the VM empty; so not every negative
repeat value gives an infinite task. -/
theorem AddTasksByID_minus_two_runs_once :
    (newTask sampleHash sampleProg (-2)).isInfinite = false ∧
    (AddTasksByID sampleHash { queue := [] } 0 [sampleProg] (-2)).tasksOf 0 =
      [newTask sampleHash sampleProg (-2)] ∧
    ((AddTasksByID sampleHash { queue := [] } 0 [sampleProg] (-2)).getAndPop 0).1 =
      Except.ok (newTask sampleHash sampleProg (-2)) ∧
    ((AddTasksByID sampleHash { queue := [] } 0 [sampleProg] (-2)).getAndPop 0).2.tasksOf 0 = [] ∧
    ¬ (∀ repeat_ : Int, repeat_ < 0 →
        (newTask sampleHash sampleProg repeat_).isInfinite = true) := by
  refine ⟨rfl, rfl, rfl, rfl, ?_⟩
  intro h
  exact absurd (h (-2) (by decide)) (by decide)

/-- C10 as amended: `AddTasksByID` appends to the sequence of the VM one `newTask` per
submitted program, in order, and leaves every other VM alone; `AddTasks` does so once for
every pair `(poolID, vmID)` it visits, and visits every VM of every pool.  A pushed task is
infinite exactly when `repeat` is `InfinityFlag` (-1).  With `InfinityFlag` every pushed task
is re-pushed by every `getAndPop` that returns it, its number of occurrences in a VM's
sequence never changes under `getAndPop` calls, and so it is still queued after any such
calls.  With any other negative `repeat` the `getAndPop` that returns the pushed task drops
it. -/
theorem AddTasksByID_infinite_iff (ProgramHash : Prog → String) (program : Prog)
    (repeat_ : Int) :
    ((newTask ProgramHash program repeat_).isInfinite = true ↔ repeat_ = InfinityFlag) ∧
    (∀ (tq : TasksQueue) (vmID : Int) (programs : List Prog),
      (AddTasksByID ProgramHash tq vmID programs repeat_).tasksOf vmID =
        tq.tasksOf vmID ++ programs.map (fun p => newTask ProgramHash p repeat_)) ∧
    (∀ (tq : TasksQueue) (vmID vm : Int) (programs : List Prog), vm ≠ vmID →
      (AddTasksByID ProgramHash tq vmID programs repeat_).tasksOf vm = tq.tasksOf vm) ∧
    (∀ (analyzer : Analyzer) (programs : List Prog) (key : Int),
      (AddTasks ProgramHash analyzer programs repeat_).tasksQueue.tasksOf key =
        analyzer.tasksQueue.tasksOf key ++
          (List.replicate (pushesTo analyzer.pools key)
            (programs.map (fun p => newTask ProgramHash p repeat_))).flatten) ∧
    (∀ (pools : List (Int × Nat)) (pool : Int × Nat) (vmID : Nat),
      pool ∈ pools → vmID < pool.2 → 0 < pushesTo pools (vmKey pool.1 vmID)) ∧
    (∀ (tq : TasksQueue) (vmID vm : Int) (programs : List Prog) (t : Task),
      t ∈ (AddTasksByID ProgramHash tq vmID programs repeat_).tasksOf vm →
      t ∈ tq.tasksOf vm ∨ ∃ p ∈ programs, t = newTask ProgramHash p repeat_) ∧
    (∀ (analyzer : Analyzer) (vm : Int) (programs : List Prog) (t : Task),
      t ∈ (AddTasks ProgramHash analyzer programs repeat_).tasksQueue.tasksOf vm →
      t ∈ analyzer.tasksQueue.tasksOf vm ∨ ∃ p ∈ programs, t = newTask ProgramHash p repeat_) ∧
    (∀ (tq : TasksQueue) (vmID : Int) (rest : List Task),
      tq.tasksOf vmID = newTask ProgramHash program InfinityFlag :: rest →
      (tq.getAndPop vmID).1 = Except.ok (newTask ProgramHash program InfinityFlag) ∧
      (tq.getAndPop vmID).2.tasksOf vmID = rest ++ [newTask ProgramHash program InfinityFlag]) ∧
    (∀ (tq : TasksQueue) (vmIDs : List Int) (vm : Int),
      ((popSequence tq vmIDs).tasksOf vm).count (newTask ProgramHash program InfinityFlag) =
        (tq.tasksOf vm).count (newTask ProgramHash program InfinityFlag)) ∧
    (∀ (tq : TasksQueue) (vmID : Int) (programs : List Prog) (vmIDs : List Int),
      program ∈ programs →
      newTask ProgramHash program InfinityFlag ∈
        (popSequence (AddTasksByID ProgramHash tq vmID programs InfinityFlag) vmIDs).tasksOf
          vmID) ∧
    (repeat_ < 0 → repeat_ ≠ InfinityFlag →
      ∀ (tq : TasksQueue) (vmID : Int) (rest : List Task),
        tq.tasksOf vmID = newTask ProgramHash program repeat_ :: rest →
        (tq.getAndPop vmID).1 = Except.ok (newTask ProgramHash program repeat_) ∧
        (tq.getAndPop vmID).2.tasksOf vmID = rest) ∧
    (repeat_ < 0 → repeat_ ≠ InfinityFlag →
      ∀ (tq : TasksQueue) (vmID : Int), tq.tasksOf vmID = [] →
        ((AddTasksByID ProgramHash tq vmID [program] repeat_).getAndPop vmID).1 =
          Except.ok (newTask ProgramHash program repeat_) ∧
        ((AddTasksByID ProgramHash tq vmID [program] repeat_).getAndPop vmID).2.tasksOf vmID =
          []) := by
  have hdrop : repeat_ < 0 → repeat_ ≠ InfinityFlag →
      ∀ (tq : TasksQueue) (vmID : Int) (rest : List Task),
        tq.tasksOf vmID = newTask ProgramHash program repeat_ :: rest →
        (tq.getAndPop vmID).1 = Except.ok (newTask ProgramHash program repeat_) ∧
        (tq.getAndPop vmID).2.tasksOf vmID = rest := by
    intro hneg hne tq vmID rest h
    have h2 := TasksQueue.tasksOf_getAndPop tq vmID vmID
    rw [TasksQueue.getAndPop_cons tq vmID _ rest h] at h2 ⊢
    simp only [if_true, h, requeue] at h2
    have hinf : (newTask ProgramHash program repeat_).isInfinite = false := by
      simp [newTask, hne]
    have hpos : ¬ ((newTask ProgramHash program repeat_).repeat_ > 0) := by
      simp only [newTask]
      omega
    simp only [hinf, hpos, if_false, Bool.false_eq_true] at h2 ⊢
    exact ⟨trivial, h2⟩
  refine ⟨by simp [newTask], ?_, ?_, ?_, ?_, ?_, ?_, ?_, ?_, ?_, hdrop, ?_⟩
  · intro tq vmID programs
    exact tasksOf_AddTasksByID ProgramHash programs tq vmID repeat_
  · intro tq vmID vm programs hne
    exact tasksOf_AddTasksByID_other ProgramHash programs tq vmID vm repeat_ hne
  · intro analyzer programs key
    exact tasksOf_AddTasks ProgramHash analyzer programs repeat_ key
  · intro pools pool vmID hpool hvm
    exact pushesTo_pos pools pool vmID hpool hvm
  · intro tq vmID vm programs t h
    exact mem_tasksOf_AddTasksByID ProgramHash programs tq vmID vm repeat_ t h
  · intro analyzer vm programs t h
    exact mem_tasksOf_AddTasks ProgramHash analyzer programs repeat_ vm t h
  · intro tq vmID rest h
    have h2 := TasksQueue.tasksOf_getAndPop tq vmID vmID
    rw [TasksQueue.getAndPop_cons tq vmID _ rest h] at h2 ⊢
    simp only [if_true, h, requeue] at h2
    have hinf : (newTask ProgramHash program InfinityFlag).isInfinite = true := by
      simp [newTask]
    simp only [hinf, if_true] at h2 ⊢
    exact ⟨trivial, h2⟩
  · intro tq vmIDs vm
    exact TasksQueue.count_popSequence vmIDs tq vm _ (by simp [newTask])
  · intro tq vmID programs vmIDs hmem
    rw [← List.count_pos_iff,
      TasksQueue.count_popSequence vmIDs _ vmID _ (by simp [newTask]), List.count_pos_iff,
      tasksOf_AddTasksByID]
    exact List.mem_append_right _ (List.mem_map.mpr ⟨program, hmem, rfl⟩)
  · intro hneg hne tq vmID hempty
    have hq := tasksOf_AddTasksByID ProgramHash [program] tq vmID repeat_
    rw [hempty] at hq
    exact hdrop hneg hne _ vmID [] hq

/-- The amended C10 at `repeat = -2` and `repeat = -1` on VM 0, and `AddTasks` on
`sampleAnalyzer`: every VM key 0, 1 and 1000 receives the task once. -/
theorem AddTasksByID_infinite_iff_witness :
    ((-2 : Int) < 0 ∧ (-2 : Int) ≠ InfinityFlag ∧
      (AddTasksByID sampleHash { queue := [] } 0 [sampleProg] (-2)).tasksOf 0 =
        newTask sampleHash sampleProg (-2) :: [] ∧
      ((AddTasksByID sampleHash { queue := [] } 0 [sampleProg] (-2)).getAndPop 0).2.tasksOf 0 =
        []) ∧
    ((AddTasksByID sampleHash { queue := [] } 0 [sampleProg] InfinityFlag).tasksOf 0 =
        newTask sampleHash sampleProg InfinityFlag :: [] ∧
      ((AddTasksByID sampleHash { queue := [] } 0 [sampleProg] InfinityFlag).getAndPop 0).2.tasksOf
        0 = [] ++ [newTask sampleHash sampleProg InfinityFlag]) ∧
    ((0, 2) ∈ sampleAnalyzer.pools ∧ 1 < ((0, 2) : Int × Nat).2 ∧
      0 < pushesTo sampleAnalyzer.pools (vmKey 0 (1 : Nat))) ∧
    ((AddTasks sampleHash sampleAnalyzer [sampleProg] InfinityFlag).tasksQueue.tasksOf 0 =
        [newTask sampleHash sampleProg InfinityFlag] ∧
      (AddTasks sampleHash sampleAnalyzer [sampleProg] InfinityFlag).tasksQueue.tasksOf 1 =
        [newTask sampleHash sampleProg InfinityFlag] ∧
      (AddTasks sampleHash sampleAnalyzer [sampleProg] InfinityFlag).tasksQueue.tasksOf 1000 =
        [newTask sampleHash sampleProg InfinityFlag] ∧
      (AddTasks sampleHash sampleAnalyzer [sampleProg] InfinityFlag).tasksQueue.tasksOf 2 = []) :=
  ⟨⟨by decide, by decide, rfl,
      ((AddTasksByID_infinite_iff sampleHash sampleProg (-2)).2.2.2.2.2.2.2.2.2.2.1 (by decide)
        (by decide) (AddTasksByID sampleHash { queue := [] } 0 [sampleProg] (-2)) 0 [] rfl).2⟩,
    ⟨rfl,
      ((AddTasksByID_infinite_iff sampleHash sampleProg (-1)).2.2.2.2.2.2.2.1
        (AddTasksByID sampleHash { queue := [] } 0 [sampleProg] InfinityFlag) 0 [] rfl).2⟩,
    ⟨by decide, by decide,
      (AddTasksByID_infinite_iff sampleHash sampleProg (-1)).2.2.2.2.1 sampleAnalyzer.pools
        (0, 2) 1 (by decide) (by decide)⟩,
    ⟨by decide, by decide, by decide, by decide⟩⟩

/-! ## TasksQueue: a finite task runs repeat + 1 times -/

theorem TasksQueue.getAndPop_fst_cons (tq : TasksQueue) (vmID : Int) (task : Task)
    (rest : List Task) (h : tq.tasksOf vmID = task :: rest) :
    (tq.getAndPop vmID).1 =
      Except.ok (if task.isInfinite then task
        else if task.repeat_ > 0 then { task with repeat_ := task.repeat_ - 1 } else task) := by
  rw [TasksQueue.getAndPop_cons tq vmID task rest h]
  by_cases hinf : task.isInfinite = true
  · simp [hinf]
  · by_cases hpos : 0 < task.repeat_
    · simp [hinf, hpos]
    · simp [hinf, hpos]

theorem TasksQueue.tasksOf_popSequence_replicate (k : Nat) (tq : TasksQueue) (vmID : Int) :
    (popSequence tq (List.replicate k vmID)).tasksOf vmID =
      Nat.iterate requeue k (tq.tasksOf vmID) := by
  induction k generalizing tq with
  | zero => rfl
  | succ k ih =>
    have hstep : popSequence tq (List.replicate (k + 1) vmID) =
        popSequence (tq.getAndPop vmID).2 (List.replicate k vmID) := rfl
    rw [hstep, ih, TasksQueue.tasksOf_getAndPop, if_pos rfl, Function.iterate_succ_apply]

theorem iterate_requeue_finite (task : Task) (n k : Nat) (hfin : task.isInfinite = false)
    (hk : k ≤ n) :
    Nat.iterate requeue k [{ task with repeat_ := (n : Int) }] =
      [{ task with repeat_ := ((n - k : Nat) : Int) }] := by
  induction k with
  | zero => rfl
  | succ k ih =>
    rw [Function.iterate_succ_apply', ih (by omega)]
    have hpos : ((n - k : Nat) : Int) > 0 := by omega
    have heq : ((n - k : Nat) : Int) - 1 = ((n - (k + 1) : Nat) : Int) := by omega
    simp only [requeue, hfin, hpos, if_true, List.nil_append, heq, Bool.false_eq_true, if_false]

theorem iterate_requeue_finite_done (task : Task) (n : Nat) (hfin : task.isInfinite = false) :
    Nat.iterate requeue (n + 1) [{ task with repeat_ := (n : Int) }] = [] := by
  rw [Function.iterate_succ_apply', iterate_requeue_finite task n n hfin (le_refl n)]
  simp [requeue, hfin]

/-- C11: a VM whose sequence is a single finite task with `repeat = n >= 0` hands that task
out (same id and program) on each of the next `n + 1` consecutive `getAndPop` calls, the
returned object showing the repeats left; after them the sequence is empty and the following
`getAndPop` returns the empty-queue error.  With `repeat = 2` the task is handed out three
times and the fourth call finds the queue empty. -/
theorem TasksQueue.finite_task_runs_repeat_plus_one (tq : TasksQueue) (vmID : Int) (task : Task)
    (n : Nat) (hfin : task.isInfinite = false) (hrep : task.repeat_ = (n : Int))
    (hq : tq.tasksOf vmID = [task]) :
    (∀ k : Nat, k ≤ n →
      ((popSequence tq (List.replicate k vmID)).getAndPop vmID).1 =
        Except.ok { task with repeat_ := ((n - (k + 1) : Nat) : Int) }) ∧
    (popSequence tq (List.replicate (n + 1) vmID)).tasksOf vmID = [] ∧
    (popSequence tq (List.replicate (n + 1) vmID)).isEmpty vmID = true ∧
    ((popSequence tq (List.replicate (n + 1) vmID)).getAndPop vmID).1 =
      Except.error (QueueError.queueEmpty vmID) ∧
    ((finiteQueue.getAndPop 0).1 = Except.ok (newTask sampleHash sampleProg 1) ∧
     ((popSequence finiteQueue [0]).getAndPop 0).1 = Except.ok (newTask sampleHash sampleProg 0) ∧
     ((popSequence finiteQueue [0, 0]).getAndPop 0).1 =
       Except.ok (newTask sampleHash sampleProg 0) ∧
     ((popSequence finiteQueue [0, 0, 0]).getAndPop 0).1 =
       Except.error (QueueError.queueEmpty 0)) := by
  have htask : task = { task with repeat_ := (n : Int) } := by
    cases task
    simp only at hrep
    simp [hrep]
  have hseq : ∀ k : Nat, k ≤ n →
      (popSequence tq (List.replicate k vmID)).tasksOf vmID =
        [{ task with repeat_ := ((n - k : Nat) : Int) }] := by
    intro k hk
    rw [TasksQueue.tasksOf_popSequence_replicate, hq]
    conv_lhs => rw [htask]
    exact iterate_requeue_finite task n k hfin hk
  have hdone : (popSequence tq (List.replicate (n + 1) vmID)).tasksOf vmID = [] := by
    rw [TasksQueue.tasksOf_popSequence_replicate, hq]
    conv_lhs => rw [htask]
    exact iterate_requeue_finite_done task n hfin
  refine ⟨?_, hdone, ?_, ?_, rfl, rfl, rfl, rfl⟩
  · intro k hk
    rw [TasksQueue.getAndPop_fst_cons _ vmID _ [] (hseq k hk)]
    by_cases hlast : k = n
    · subst hlast
      simp [hfin]
    · have hpos : ((n - k : Nat) : Int) > 0 := by omega
      have heq : ((n - k : Nat) : Int) - 1 = ((n - (k + 1) : Nat) : Int) := by omega
      simp [hfin, hpos, heq]
  · unfold TasksQueue.tasksOf at hdone
    unfold TasksQueue.isEmpty
    cases hl : GoMap.lookup (popSequence tq (List.replicate (n + 1) vmID)).queue vmID with
    | none => rfl
    | some info =>
      simp only [hl] at hdone
      simp [hdone]
  · rw [TasksQueue.getAndPop_nil _ vmID hdone]

/-- C11 at `finiteQueue` (`repeat = 2`): the third call still returns the task and the
sequence is empty after it. -/
theorem TasksQueue.finite_task_runs_repeat_plus_one_witness :
    (newTask sampleHash sampleProg 2).isInfinite = false ∧
    (newTask sampleHash sampleProg 2).repeat_ = ((2 : Nat) : Int) ∧
    finiteQueue.tasksOf 0 = [newTask sampleHash sampleProg 2] ∧
    ((popSequence finiteQueue (List.replicate 2 0)).getAndPop 0).1 =
      Except.ok { newTask sampleHash sampleProg 2 with repeat_ := ((2 - (2 + 1) : Nat) : Int) } ∧
    (popSequence finiteQueue (List.replicate (2 + 1) 0)).tasksOf 0 = [] :=
  have key := TasksQueue.finite_task_runs_repeat_plus_one finiteQueue 0
    (newTask sampleHash sampleProg 2) 2 rfl rfl rfl
  ⟨rfl, rfl, rfl, key.1 2 (le_refl 2), key.2.1⟩

/-! ## TasksQueue: stop on an unknown id -/

theorem stopTasks_snd (taskID : String) (tasks : List Task) :
    (stopTasks taskID tasks).2 = tasks.any (fun task => task.id == taskID) := by
  have hsome := @List.findIdx?_isSome Task tasks (fun task => task.id == taskID)
  unfold stopTasks
  cases hf : tasks.findIdx? (fun queueTask => queueTask.id == taskID) with
  | none =>
    rw [hf] at hsome
    simpa using hsome
  | some index =>
    rw [hf] at hsome
    have hany : tasks.any (fun task => task.id == taskID) = true := by simpa using hsome.symm
    rw [hany]
    show (if index = 0 then (tasks.drop (index + 1), true)
      else if index = tasks.length - 1 then (tasks.take index, true)
      else (tasks.take index ++ tasks.drop (index + 1), true)).2 = true
    split_ifs <;> rfl

theorem stopTasks_fst_of_not_found (taskID : String) (tasks : List Task)
    (h : tasks.any (fun task => task.id == taskID) = false) :
    (stopTasks taskID tasks).1 = tasks := by
  have hsome := @List.findIdx?_isSome Task tasks (fun task => task.id == taskID)
  rw [h] at hsome
  unfold stopTasks
  cases hf : tasks.findIdx? (fun queueTask => queueTask.id == taskID) with
  | none => rfl
  | some index =>
    rw [hf] at hsome
    simp at hsome

theorem TasksQueue.stop_isStopped (tq : TasksQueue) (taskID : String) :
    tq.queue.any (fun entry => (stopTasks taskID entry.2.tasks).2) = tq.contains taskID := by
  unfold TasksQueue.contains
  congr 1
  funext entry
  exact stopTasks_snd taskID entry.2.tasks

/-- C12: `stop` returns the not-found error exactly when `contains` answers `false`, which is
exactly when no entry of the queue map holds a task with that id; in that case the queue is
left as it was.  In the other case `stop` returns no error. -/
theorem TasksQueue.stop_not_found_iff (tq : TasksQueue) (taskID : String) :
    ((tq.stop taskID).2 = some QueueError.noSuchTask ↔ tq.contains taskID = false) ∧
    ((tq.stop taskID).2 = none ↔ tq.contains taskID = true) ∧
    (tq.contains taskID = false ↔
      ∀ entry ∈ tq.queue, ∀ task ∈ entry.2.tasks, task.id ≠ taskID) ∧
    (tq.contains taskID = false → (tq.stop taskID).1 = tq) := by
  have hstop := TasksQueue.stop_isStopped tq taskID
  refine ⟨?_, ?_, ?_, ?_⟩
  · unfold TasksQueue.stop
    simp only [hstop]
    cases hc : tq.contains taskID <;> simp
  · unfold TasksQueue.stop
    simp only [hstop]
    cases hc : tq.contains taskID <;> simp
  · unfold TasksQueue.contains
    simp [List.any_eq_false]
  · intro hc
    have hall : ∀ entry ∈ tq.queue,
        entry.2.tasks.any (fun task => task.id == taskID) = false := by
      unfold TasksQueue.contains at hc
      intro entry hmem
      have := List.any_eq_false.mp hc entry hmem
      simpa using this
    unfold TasksQueue.stop
    simp only [hstop, hc]
    have hmap : tq.queue.map (fun entry : Int × VMInfo =>
        (entry.1, { entry.2 with tasks := (stopTasks taskID entry.2.tasks).1 })) = tq.queue := by
      conv_rhs => rw [← List.map_id tq.queue]
      apply List.map_congr_left
      intro entry hmem
      rw [stopTasks_fst_of_not_found taskID entry.2.tasks (hall entry hmem)]
      rfl
    simp [hmap]

/-- C12 at `sampleQueue`: the id "Z" is in no queue, `stop` reports it and changes nothing;
the id "P" is queued and `stop` returns no error. -/
theorem TasksQueue.stop_not_found_iff_witness :
    sampleQueue.contains "Z" = false ∧
    (sampleQueue.stop "Z").2 = some QueueError.noSuchTask ∧
    (sampleQueue.stop "Z").1 = sampleQueue ∧
    (sampleQueue.stop "P").2 = none :=
  have key := TasksQueue.stop_not_found_iff sampleQueue "Z"
  ⟨rfl, key.1.mpr rfl, key.2.2.2 rfl, rfl⟩

/-! ## Statistics: reporting an error that LoadData created -/

/-- C13 at the failing input: the state after `LoadData` of `sampleSnapshot` into a fresh
statistics with three pools is reachable, its `ErrorInfo` for "BUG: foo" has a per-pool slice
of length 0 instead of 3, and `addResult` for that error text from pool 0 (an index in range)
aborts on the slice index. -/
theorem Statistics.addResult_aborts_after_LoadData :
    Statistics.Reachable sampleHash sampleErrorHash (fun _ => True) 3
      ((MakeStatistics 3).LoadData sampleSnapshot) ∧
    ((MakeStatistics 3).LoadData sampleSnapshot).pools = 3 ∧
    ((MakeStatistics 3).LoadData sampleSnapshot).errorInfo "P" (sampleErrorHash "BUG: foo") =
      some { error := "BUG: foo", pools := [], count := 3 } ∧
    Statistics.addResult sampleHash sampleErrorHash [("P", sampleProg)]
      ((MakeStatistics 3).LoadData sampleSnapshot)
      { Pool := 0, VM := 0, TaskID := "P", Hanged := false, Error := some "BUG: foo" } = none :=
  ⟨Statistics.Reachable.stepLoad (MakeStatistics 3) sampleSnapshot Statistics.Reachable.make
      trivial,
    rfl, by decide, by decide⟩

end SyzAnalyzer
